import Mathlib

/-!
Verification of the signal-processing pipeline of the light-sensor-circuit
repository.  The repository contains two coexisting implementations of the
pipeline: a dynamic-buffer variant (`src/src/signal/signal_processor.cpp`,
using `std::deque`) and a fixed-buffer variant (`src/unnamed/part_007`,
using fixed arrays with ring indices).  Both are embedded below; names with
an `F` suffix model the fixed-buffer variant.

Scalars are embedded as exact rationals (ℚ); the two places where the code
calls `sqrtf` (outlier standard deviation, trend correlation) are embedded
through `Real.sqrt` on ℝ.  The C++ constant `M_PI` is a decimal literal and
is embedded as the corresponding rational constant.
-/

/-- The decimal constant `M_PI` used by the C++ sources. -/
def mPi : ℚ := 3.14159265358979323846

/-- The last `k` elements of a list. -/
def takeLast (k : ℕ) (l : List ℚ) : List ℚ := l.drop (l.length - k)

/-- Arithmetic mean of a list (`sum / size`; empty list yields `0/0 = 0`). -/
def listMean (l : List ℚ) : ℚ := l.sum / (l.length : ℚ)

-- MovingAverageFilter (dynamic variant, `std::deque` buffer with running sum)

structure MovingAverageFilter where
  window_size : ℕ
  buffer : List ℚ
  sum : ℚ

/-- Constructor `MovingAverageFilter(uint8_t window_size)`. -/
def MovingAverageFilter.mk' (w : ℕ) : MovingAverageFilter := ⟨w, [], 0⟩

/-- `MovingAverageFilter::process`: push the input, evict the oldest element
when the buffer exceeds the window (updating the running sum), return
`sum / buffer.size()`. -/
def MovingAverageFilter.process (f : MovingAverageFilter) (input : ℚ) :
    MovingAverageFilter × ℚ :=
  let buffer := f.buffer ++ [input]
  let sum := f.sum + input
  let p := if f.window_size < buffer.length then (buffer.tail, sum - buffer.headI)
           else (buffer, sum)
  (⟨f.window_size, p.1, p.2⟩, p.2 / (p.1.length : ℚ))

/-- Feed a whole input sequence through the filter, keeping the state. -/
def MovingAverageFilter.run (f : MovingAverageFilter) (l : List ℚ) : MovingAverageFilter :=
  l.foldl (fun s x => (s.process x).1) f

-- LowPassFilter (identical in both variants)

/-- `alpha = dt / (rc + dt)` with `rc = 1/(2*M_PI*cutoff)`, `dt = 1/sample_rate`,
as computed by the `LowPassFilter` constructor. -/
def lowPassAlpha (cutoff_freq sample_rate : ℚ) : ℚ :=
  let rc := 1 / (2 * mPi * cutoff_freq)
  let dt := 1 / sample_rate
  dt / (rc + dt)

structure LowPassFilter where
  alpha : ℚ
  prev_output : ℚ

/-- Constructor `LowPassFilter(cutoff_freq, sample_rate)`. -/
def LowPassFilter.mk' (cutoff_freq sample_rate : ℚ) : LowPassFilter :=
  ⟨lowPassAlpha cutoff_freq sample_rate, 0⟩

/-- `LowPassFilter::process`: `y = alpha*x + (1-alpha)*y_prev`. -/
def LowPassFilter.process (f : LowPassFilter) (input : ℚ) : LowPassFilter × ℚ :=
  let out := f.alpha * input + (1 - f.alpha) * f.prev_output
  (⟨f.alpha, out⟩, out)

-- MedianFilter (dynamic variant)

structure MedianFilter where
  window_size : ℕ
  buffer : List ℚ

/-- Constructor `MedianFilter(uint8_t window_size)`. -/
def MedianFilter.mk' (w : ℕ) : MedianFilter := ⟨w, []⟩

/-- Median of a window as the sources compute it: sort a working copy, then
take the middle element, or the mean of the two middle elements when the
count is even. -/
def medianOf (l : List ℚ) : ℚ :=
  let sorted := l.insertionSort (· ≤ ·)
  let size := sorted.length
  if size % 2 = 0 then (sorted.getD (size / 2 - 1) 0 + sorted.getD (size / 2) 0) / 2
  else sorted.getD (size / 2) 0

/-- `MedianFilter::process`: push, evict the oldest element when over the
window, pass the input through when fewer than 3 values are buffered,
otherwise return the median of the buffer. -/
def MedianFilter.process (f : MedianFilter) (input : ℚ) : MedianFilter × ℚ :=
  let buffer := f.buffer ++ [input]
  let buffer := if f.window_size < buffer.length then buffer.tail else buffer
  let out := if buffer.length < 3 then input else medianOf buffer
  (⟨f.window_size, buffer⟩, out)

/-- Feed a whole input sequence through the median filter. -/
def MedianFilter.run (f : MedianFilter) (l : List ℚ) : MedianFilter :=
  l.foldl (fun s x => (s.process x).1) f

-- AdaptiveFilter (identical in both variants)

structure AdaptiveFilter where
  adaptation_rate : ℚ
  noise_floor : ℚ
  filter_coefficient : ℚ
  prev_output : ℚ
  error_variance : ℚ

/-- Constructor `AdaptiveFilter(adaptation_rate, noise_floor)`; also the
state produced by `reset()`. -/
def AdaptiveFilter.mk' (rate floor : ℚ) : AdaptiveFilter := ⟨rate, floor, 1/2, 0, 0⟩

/-- `AdaptiveFilter::process`: EWMA of squared error, coefficient pushed up
by `rate*0.1` (capped at 0.9) when the error variance exceeds the noise
floor and pushed down (floored at 0.1) otherwise, then a first-order blend. -/
def AdaptiveFilter.process (f : AdaptiveFilter) (input : ℚ) : AdaptiveFilter × ℚ :=
  let error := input - f.prev_output
  let ev := (1 - f.adaptation_rate) * f.error_variance + f.adaptation_rate * error * error
  let coeff := if f.noise_floor < ev then
      min (9/10) (f.filter_coefficient + f.adaptation_rate * (1/10))
    else
      max (1/10) (f.filter_coefficient - f.adaptation_rate * (1/10))
  let out := coeff * input + (1 - coeff) * f.prev_output
  (⟨f.adaptation_rate, f.noise_floor, coeff, out, ev⟩, out)

/-- Feed a whole input sequence through the adaptive filter. -/
def AdaptiveFilter.run (f : AdaptiveFilter) (l : List ℚ) : AdaptiveFilter :=
  l.foldl (fun s x => (s.process x).1) f

-- OutlierDetector (dynamic variant; stateless except for its threshold,
-- which the orchestrator keeps).  `sqrtf` is embedded as `Real.sqrt`.

/-- `OutlierDetector::calculateMean`: `0` on an empty list, else `sum/size`. -/
def calculateMean (values : List ℚ) : ℚ :=
  if values.length = 0 then 0 else values.sum / (values.length : ℚ)

/-- The loop of `OutlierDetector::calculateStdDev`: sum of squared deviations
from `mean`. -/
def sumSquaredDiff (values : List ℚ) (mean : ℚ) : ℚ :=
  (values.map (fun v => (v - mean) * (v - mean))).sum

/-- `OutlierDetector::calculateStdDev`: `0` when fewer than 2 values, else
`sqrt(sum_squared_diff / (size - 1))` (Bessel corrected). -/
noncomputable def calculateStdDev (values : List ℚ) (mean : ℚ) : ℝ :=
  if values.length < 2 then 0
  else Real.sqrt ((sumSquaredDiff values mean : ℝ) / ((values.length - 1 : ℕ) : ℝ))

/-- `OutlierDetector::isOutlier(value, recent_values)`: false when fewer than
3 recent values; false when the standard deviation is exactly zero; otherwise
the z-score `|value - mean| / std_dev` exceeds the threshold. -/
noncomputable def OutlierDetector.isOutlier (threshold value : ℚ)
    (recent_values : List ℚ) : Prop :=
  if recent_values.length < 3 then False
  else
    let mean := calculateMean recent_values
    let std_dev := calculateStdDev recent_values mean
    if std_dev = 0 then False
    else (threshold : ℝ) < |(value : ℝ) - (mean : ℝ)| / std_dev

/-- The spec's description of the outlier predicate, for comparison: at least
3 buffered values, a nonzero Bessel-corrected sample standard deviation, and
`|value - mean| / stddev > threshold`. -/
noncomputable def specSampleStdDev (l : List ℚ) : ℝ :=
  Real.sqrt ((sumSquaredDiff l (calculateMean l) : ℝ) / ((l.length : ℝ) - 1))

/-- Spec-side outlier predicate, written from the claim's words. -/
noncomputable def specIsOutlier (threshold value : ℚ) (recent : List ℚ) : Prop :=
  3 ≤ recent.length ∧ specSampleStdDev recent ≠ 0 ∧
    (threshold : ℝ) < |(value : ℝ) - (calculateMean recent : ℝ)| / specSampleStdDev recent

-- PeakDetector (dynamic variant; carries `prev_value` and `rising`)

structure PeakDetector where
  threshold : ℚ
  prev_value : ℚ
  rising : Bool

/-- `PeakDetector::isPeak(value, recent_values)`: returns false (leaving the
carried state untouched) when fewer than 3 recent values are buffered;
otherwise declares a peak when the signal was rising and now is not, gated by
`|value - prev| > average(recent) * threshold`, and updates `prev_value` and
`rising` unconditionally on that path. -/
def PeakDetector.isPeak (d : PeakDetector) (value : ℚ) (recent_values : List ℚ) :
    PeakDetector × Bool :=
  if recent_values.length < 3 then (d, false)
  else
    let current_rising := decide (d.prev_value < value)
    let isp := d.rising && !current_rising
    let isp := if isp then
        decide ((recent_values.sum / (recent_values.length : ℚ)) * d.threshold
          < |value - d.prev_value|)
      else isp
    (⟨d.threshold, value, current_rising⟩, isp)

-- TrendAnalyzer (dynamic variant)

structure TrendResult where
  slope : ℚ
  confidence : ℝ
  is_increasing : Prop
  is_decreasing : Prop

/-- The accumulation loop of `TrendAnalyzer::linearRegression`: numerator,
x denominator and y denominator of the regression/correlation formulas,
summed over the index range of `x_values`. -/
def regSums (x_values y_values : List ℚ) : ℚ × ℚ × ℚ :=
  let n := x_values.length
  let x_mean := x_values.sum / (n : ℚ)
  let y_mean := y_values.sum / (n : ℚ)
  (∑ i ∈ Finset.range n, (x_values.getD i 0 - x_mean) * (y_values.getD i 0 - y_mean),
   ∑ i ∈ Finset.range n, (x_values.getD i 0 - x_mean) * (x_values.getD i 0 - x_mean),
   ∑ i ∈ Finset.range n, (y_values.getD i 0 - y_mean) * (y_values.getD i 0 - y_mean))

/-- `TrendAnalyzer::linearRegression`: `(0,0)` on mismatched or short input;
slope `numerator/x_denominator` guarded by `x_denominator == 0`; correlation
`numerator / sqrt(x_denominator * y_denominator)` guarded by either
denominator being `0`. -/
noncomputable def linearRegression (x_values y_values : List ℚ) : ℚ × ℝ :=
  if x_values.length ≠ y_values.length ∨ x_values.length < 2 then (0, 0)
  else
    let s := regSums x_values y_values
    let slope := if s.2.1 = 0 then 0 else s.1 / s.2.1
    let correlation : ℝ := if s.2.1 = 0 ∨ s.2.2 = 0 then 0
      else (s.1 : ℝ) / Real.sqrt ((s.2.1 : ℝ) * (s.2.2 : ℝ))
    (slope, correlation)

structure TrendAnalyzer where
  window_size : ℕ
  buffer : List ℚ

/-- Constructor `TrendAnalyzer(uint8_t window_size)`. -/
def TrendAnalyzer.mk' (w : ℕ) : TrendAnalyzer := ⟨w, []⟩

/-- `TrendAnalyzer::analyzeTrend`: push into the rolling window (evicting the
oldest over the window size), return zeros when fewer than 3 values are
buffered, otherwise run the linear regression against x values `0..n-1` and
report slope, `|correlation|` as confidence and the sign tests. -/
noncomputable def TrendAnalyzer.analyzeTrend (t : TrendAnalyzer) (value : ℚ) :
    TrendAnalyzer × TrendResult :=
  let buffer := t.buffer ++ [value]
  let buffer := if t.window_size < buffer.length then buffer.tail else buffer
  if buffer.length < 3 then (⟨t.window_size, buffer⟩, ⟨0, 0, False, False⟩)
  else
    let x_values := (List.range buffer.length).map (fun i => (i : ℚ))
    let r := linearRegression x_values buffer
    (⟨t.window_size, buffer⟩, ⟨r.1, |r.2|, 0 < r.1, r.1 < 0⟩)

-- Shared data model (signal_processor.h / light_sensor.h)

structure SignalConfig where
  moving_average_window : ℕ
  low_pass_cutoff : ℚ
  high_pass_cutoff : ℚ
  enable_median_filter : Bool
  median_window : ℕ
  noise_threshold : ℚ
  enable_outlier_removal : Bool
  outlier_threshold : ℚ
  enable_trend_detection : Bool
  trend_window : ℕ
  enable_peak_detection : Bool
  peak_threshold : ℚ
  enable_adaptive_filter : Bool
  adaptation_rate : ℚ
  noise_floor : ℚ

structure SensorReading where
  timestamp_ms : ℕ
  raw_value : ℚ
  lux_value : ℚ
  voltage : ℚ
  is_valid : Bool
  quality : ℕ

/-- A reading whose `lux_value` is `x` (the pipeline reads no other field). -/
def mkReading (x : ℚ) : SensorReading :=
  { timestamp_ms := 0, raw_value := x, lux_value := x, voltage := 0,
    is_valid := true, quality := 100 }

structure SignalAnalysis where
  filtered_value : ℚ
  noise_level : ℚ
  snr : ℚ
  is_outlier : Prop
  is_peak : Bool
  trend_slope : ℚ
  trend_confidence : ℝ
  quality_score : ℕ

inductive FilterType where
  | MOVING_AVERAGE
  | LOW_PASS
  | HIGH_PASS
  | MEDIAN
  | ADAPTIVE

-- SignalProcessor, dynamic variant: a vector of polymorphic filters plus the
-- three detectors and a recent-value window capped at 20 entries.

inductive DigitalFilter where
  | ma : MovingAverageFilter → DigitalFilter
  | lp : LowPassFilter → DigitalFilter
  | med : MedianFilter → DigitalFilter
  | adapt : AdaptiveFilter → DigitalFilter

/-- Virtual dispatch of `IDigitalFilter::process`. -/
def DigitalFilter.process : DigitalFilter → ℚ → DigitalFilter × ℚ
  | ma f, x => let p := f.process x; (ma p.1, p.2)
  | lp f, x => let p := f.process x; (lp p.1, p.2)
  | med f, x => let p := f.process x; (med p.1, p.2)
  | adapt f, x => let p := f.process x; (adapt p.1, p.2)

/-- `SignalProcessor::initializeFilters`: rebuild the filter chain from the
configuration — moving average when its window exceeds 1, median when enabled
with window exceeding 1, low-pass when the cutoff is positive (1 Hz sample
rate), adaptive when enabled; in that order. -/
def initFilters (c : SignalConfig) : List DigitalFilter :=
  (if 1 < c.moving_average_window then
      [DigitalFilter.ma (MovingAverageFilter.mk' c.moving_average_window)] else []) ++
  (if c.enable_median_filter ∧ 1 < c.median_window then
      [DigitalFilter.med (MedianFilter.mk' c.median_window)] else []) ++
  (if 0 < c.low_pass_cutoff then
      [DigitalFilter.lp (LowPassFilter.mk' c.low_pass_cutoff 1)] else []) ++
  (if c.enable_adaptive_filter then
      [DigitalFilter.adapt (AdaptiveFilter.mk' c.adaptation_rate c.noise_floor)] else [])

/-- `SignalProcessor::applyFilters`: fold the sample through the chain. -/
def applyFilters : List DigitalFilter → ℚ → List DigitalFilter × ℚ
  | [], v => ([], v)
  | f :: rest, v =>
    let p := f.process v
    let q := applyFilters rest p.2
    (p.1 :: q.1, q.2)

structure SignalProcessor where
  config : SignalConfig
  filters : List DigitalFilter
  outlier_threshold : ℚ
  peak : PeakDetector
  trend : TrendAnalyzer
  recent_values : List ℚ
  noise_level_estimate : ℚ
  signal_quality : ℕ

/-- Constructor `SignalProcessor(const SignalConfig&)`. -/
def SignalProcessor.mk' (c : SignalConfig) : SignalProcessor :=
  { config := c, filters := initFilters c, outlier_threshold := c.outlier_threshold,
    peak := ⟨c.peak_threshold, 0, false⟩, trend := TrendAnalyzer.mk' c.trend_window,
    recent_values := [], noise_level_estimate := 0, signal_quality := 50 }

open Classical in
/-- `SignalProcessor::calculateSignalQuality` (dynamic variant): `uint8_t`
quality starting at 100, with deductions applied in modulo-256 arithmetic
(never below zero here since the deductions total at most 60), then clamped
through `max(0, min(100, int(quality)))`. -/
noncomputable def SignalProcessor.calculateSignalQuality (snr : ℚ) (outlier : Prop)
    (conf : ℝ) : ℕ :=
  let q : ℕ := 100
  let q := if snr < 1 then (q + 256 - 30) % 256
           else if snr < 2 then (q + 256 - 15) % 256 else q
  let q := if outlier then (q + 256 - 20) % 256 else q
  let q := if conf < (1/2 : ℝ) then (q + 256 - 10) % 256 else q
  max 0 (min 100 q)

/-- `SignalProcessor::processReading` (dynamic variant), returning the updated
processor state together with the per-sample `SignalAnalysis`. -/
noncomputable def SignalProcessor.processReading (s : SignalProcessor)
    (reading : SensorReading) : SignalProcessor × SignalAnalysis :=
  let recent := s.recent_values ++ [reading.lux_value]
  let recent := if 20 < recent.length then recent.tail else recent
  let fp := applyFilters s.filters reading.lux_value
  let filtered := fp.2
  let noise := (1 - 1/10) * s.noise_level_estimate + (1/10) * |reading.lux_value - filtered|
  let is_outlier : Prop :=
    if s.config.enable_outlier_removal then
      OutlierDetector.isOutlier s.outlier_threshold reading.lux_value recent
    else False
  let pk := if s.config.enable_peak_detection then s.peak.isPeak reading.lux_value recent
            else (s.peak, false)
  let tr := if s.config.enable_trend_detection then s.trend.analyzeTrend reading.lux_value
            else (s.trend, ⟨0, 0, False, False⟩)
  let snr := if 0 < filtered then filtered / max noise (1/1000) else 0
  let quality := SignalProcessor.calculateSignalQuality snr is_outlier tr.2.confidence
  ({ s with filters := fp.1, recent_values := recent, noise_level_estimate := noise,
            peak := pk.1, trend := tr.1, signal_quality := quality },
   { filtered_value := filtered, noise_level := noise, snr := snr,
     is_outlier := is_outlier, is_peak := pk.2, trend_slope := tr.2.slope,
     trend_confidence := tr.2.confidence, quality_score := quality })

/-- `SignalProcessor::configure` (dynamic variant): store the new config, set
the detector thresholds, clear the trend window (`setWindowSize`), `reset()`
(clear recent values, zero the noise estimate, quality back to 50) and
rebuild the filter chain.  Note that the peak detector's `prev_value` and
`rising` are carried over — `PeakDetector` has no reset. -/
def SignalProcessor.configure (s : SignalProcessor) (c : SignalConfig) : SignalProcessor :=
  { config := c, filters := initFilters c, outlier_threshold := c.outlier_threshold,
    peak := { s.peak with threshold := c.peak_threshold },
    trend := ⟨c.trend_window, []⟩,
    recent_values := [], noise_level_estimate := 0, signal_quality := 50 }

/-- `SignalProcessor::setFilterEnabled` (dynamic variant): the body is a stub
that performs no state change at all. -/
def SignalProcessor.setFilterEnabled (s : SignalProcessor) (_ : FilterType)
    (_ : Bool) : SignalProcessor := s

/-- Feed a sequence of lux values through the dynamic-variant processor. -/
noncomputable def SignalProcessor.run (s : SignalProcessor) (l : List ℚ) : SignalProcessor :=
  l.foldl (fun st x => (st.processReading (mkReading x)).1) s

-- Fixed-buffer variant (src/unnamed/part_007).  Its header is not under
-- src/; ring buffers are embedded as index functions `ℕ → ℚ` with an index
-- and a count, and the two capacity constants are taken from the spec.

/-- Modelled from the spec: the fixed-buffer variant's header (missing from
src/) defines a compile-time `MAX_FILTER_WINDOW`; the spec says filter
windows are "capped at a fixed maximum" and "bounded, e.g. ≤16". -/
def MAX_FILTER_WINDOW : ℕ := 16

/-- Modelled from the spec: the fixed-buffer variant's header (missing from
src/) defines a compile-time `MAX_RECENT_VALUES` for the bounded
recent-value window (the dynamic variant caps it at 20). -/
def MAX_RECENT_VALUES : ℕ := 20

structure MAFilterF where
  window_size : ℕ
  buf : ℕ → ℚ
  index : ℕ
  count : ℕ
  sum : ℚ

/-- Fixed-buffer `MovingAverageFilter` constructor: window capped at
`MAX_FILTER_WINDOW`, zeroed buffer. -/
def MAFilterF.mk' (w : ℕ) : MAFilterF :=
  ⟨min w MAX_FILTER_WINDOW, fun _ => 0, 0, 0, 0⟩

/-- Fixed-buffer `MovingAverageFilter::reset`. -/
def MAFilterF.reset (f : MAFilterF) : MAFilterF :=
  ⟨f.window_size, fun _ => 0, 0, 0, 0⟩

/-- Fixed-buffer `MovingAverageFilter::process`: subtract the value about to
be overwritten when the buffer is full, overwrite the slot, advance the ring
index modulo the window, saturate the count and return `sum / count`. -/
def MAFilterF.process (f : MAFilterF) (input : ℚ) : MAFilterF × ℚ :=
  let sum := if f.window_size ≤ f.count then f.sum - f.buf f.index else f.sum
  let buf := fun j => if j = f.index then input else f.buf j
  let sum := sum + input
  let index := (f.index + 1) % f.window_size
  let count := if f.count < f.window_size then f.count + 1 else f.count
  (⟨f.window_size, buf, index, count, sum⟩, sum / (count : ℚ))

/-- Feed a whole input sequence through the fixed-buffer moving average. -/
def MAFilterF.run (f : MAFilterF) (l : List ℚ) : MAFilterF :=
  l.foldl (fun s x => (s.process x).1) f

/-- The chronological contents of a ring buffer: `count` filled slots read
oldest-first starting `W - count` steps after `index` (so exactly at `index`
when the buffer is full, and from slot 0 when it has not wrapped yet). -/
def ringWin (W count index : ℕ) (buf : ℕ → ℚ) : List ℚ :=
  (List.range count).map (fun i => buf ((index + (W - count) + i) % W))

structure MedianFilterF where
  window_size : ℕ
  buf : ℕ → ℚ
  index : ℕ
  count : ℕ

/-- Fixed-buffer `MedianFilter` constructor. -/
def MedianFilterF.mk' (w : ℕ) : MedianFilterF :=
  ⟨min w MAX_FILTER_WINDOW, fun _ => 0, 0, 0⟩

/-- Fixed-buffer `MedianFilter::reset`. -/
def MedianFilterF.reset (f : MedianFilterF) : MedianFilterF :=
  ⟨f.window_size, fun _ => 0, 0, 0⟩

/-- Fixed-buffer `MedianFilter::process`: write the slot, advance the ring,
pass through under 3 samples, else bubble-sort the filled slots and take the
middle (or the mean of the two middle slots). -/
def MedianFilterF.process (f : MedianFilterF) (input : ℚ) : MedianFilterF × ℚ :=
  let buf := fun j => if j = f.index then input else f.buf j
  let index := (f.index + 1) % f.window_size
  let count := if f.count < f.window_size then f.count + 1 else f.count
  let st : MedianFilterF := ⟨f.window_size, buf, index, count⟩
  if count < 3 then (st, input)
  else (st, medianOf ((List.range count).map buf))

/-- Feed a whole input sequence through the fixed-buffer median filter. -/
def MedianFilterF.run (f : MedianFilterF) (l : List ℚ) : MedianFilterF :=
  l.foldl (fun s x => (s.process x).1) f

structure TrendAnalyzerF where
  window_size : ℕ
  buf : ℕ → ℚ
  index : ℕ
  count : ℕ

/-- Fixed-buffer `TrendAnalyzer` constructor. -/
def TrendAnalyzerF.mk' (w : ℕ) : TrendAnalyzerF :=
  ⟨min w MAX_FILTER_WINDOW, fun _ => 0, 0, 0⟩

/-- Fixed-buffer `TrendAnalyzer::reset`. -/
def TrendAnalyzerF.reset (t : TrendAnalyzerF) : TrendAnalyzerF :=
  ⟨t.window_size, fun _ => 0, 0, 0⟩

/-- Fixed-buffer `TrendAnalyzer::setWindowSize`: cap the window, reset. -/
def TrendAnalyzerF.setWindowSize (_t : TrendAnalyzerF) (w : ℕ) : TrendAnalyzerF :=
  ⟨min w MAX_FILTER_WINDOW, fun _ => 0, 0, 0⟩

/-- The regression sums of the fixed-buffer `TrendAnalyzer::analyzeTrend`
loop, over a buffer read in ring order starting at `index`:
`x_mean = (count-1)/2`, `y_mean` over the filled slots. -/
def regSumsF (window : ℕ) (buf : ℕ → ℚ) (index count : ℕ) : ℚ × ℚ × ℚ :=
  let x_mean : ℚ := ((count - 1 : ℕ) : ℚ) / 2
  let y_mean : ℚ := (∑ i ∈ Finset.range count, buf i) / (count : ℚ)
  (∑ i ∈ Finset.range count, ((i : ℚ) - x_mean) * (buf ((index + i) % window) - y_mean),
   ∑ i ∈ Finset.range count, ((i : ℚ) - x_mean) * ((i : ℚ) - x_mean),
   ∑ i ∈ Finset.range count, (buf ((index + i) % window) - y_mean) * (buf ((index + i) % window) - y_mean))

/-- Fixed-buffer `TrendAnalyzer::analyzeTrend`: write the slot, advance the
ring, zeros under 3 samples; slope only when `x_denominator > 0.001`,
confidence `|num / sqrt(xd*yd)|` additionally requiring
`y_denominator > 0.001`; direction flags gated by `confidence > 0.5`. -/
noncomputable def TrendAnalyzerF.analyzeTrend (t : TrendAnalyzerF) (value : ℚ) :
    TrendAnalyzerF × TrendResult :=
  let buf := fun j => if j = t.index then value else t.buf j
  let index := (t.index + 1) % t.window_size
  let count := if t.count < t.window_size then t.count + 1 else t.count
  let st : TrendAnalyzerF := ⟨t.window_size, buf, index, count⟩
  if count < 3 then (st, ⟨0, 0, False, False⟩)
  else
    let s := regSumsF t.window_size buf index count
    let slope := if 1/1000 < s.2.1 then s.1 / s.2.1 else 0
    let conf : ℝ := if 1/1000 < s.2.1 ∧ 1/1000 < s.2.2 then
        |(s.1 : ℝ) / Real.sqrt ((s.2.1 : ℝ) * (s.2.2 : ℝ))| else 0
    (st, ⟨slope, conf, 0 < slope ∧ (1/2 : ℝ) < conf, slope < 0 ∧ (1/2 : ℝ) < conf⟩)

structure SignalProcessorF where
  config : SignalConfig
  ma_filter : MAFilterF
  lp_filter : LowPassFilter
  median_filter : MedianFilterF
  adaptive_filter : AdaptiveFilter
  trend_analyzer : TrendAnalyzerF
  ma_enabled : Bool
  lp_enabled : Bool
  median_enabled : Bool
  adaptive_enabled : Bool
  recent : ℕ → ℚ
  recent_index : ℕ
  recent_count : ℕ
  noise_level_estimate : ℚ
  signal_quality : ℕ
  prev_value : ℚ
  rising : Bool

/-- Fixed-variant constructor `SignalProcessor(const SignalConfig&)`: member
filters built from the configuration (low-pass falls back to a 0.5 Hz cutoff
when the configured cutoff is not positive), enable flags derived from it,
zeroed recent window and peak state. -/
def SignalProcessorF.mk' (c : SignalConfig) : SignalProcessorF :=
  { config := c,
    ma_filter := MAFilterF.mk' c.moving_average_window,
    lp_filter := LowPassFilter.mk' (if 0 < c.low_pass_cutoff then c.low_pass_cutoff else 1/2) 1,
    median_filter := MedianFilterF.mk' c.median_window,
    adaptive_filter := AdaptiveFilter.mk' c.adaptation_rate c.noise_floor,
    trend_analyzer := TrendAnalyzerF.mk' c.trend_window,
    ma_enabled := decide (1 < c.moving_average_window),
    lp_enabled := decide (0 < c.low_pass_cutoff),
    median_enabled := c.enable_median_filter,
    adaptive_enabled := c.enable_adaptive_filter,
    recent := fun _ => 0, recent_index := 0, recent_count := 0,
    noise_level_estimate := 0, signal_quality := 50,
    prev_value := 0, rising := false }

/-- Fixed-variant `SignalProcessor::applyFilters`: moving average, median,
low-pass, adaptive, each applied only when its flag is set. -/
def SignalProcessorF.applyFilters (s : SignalProcessorF) (input : ℚ) :
    SignalProcessorF × ℚ :=
  let p1 := if s.ma_enabled then s.ma_filter.process input else (s.ma_filter, input)
  let p2 := if s.median_enabled then s.median_filter.process p1.2 else (s.median_filter, p1.2)
  let p3 := if s.lp_enabled then s.lp_filter.process p2.2 else (s.lp_filter, p2.2)
  let p4 := if s.adaptive_enabled then s.adaptive_filter.process p3.2
            else (s.adaptive_filter, p3.2)
  ({ s with ma_filter := p1.1, median_filter := p2.1, lp_filter := p3.1,
            adaptive_filter := p4.1 }, p4.2)

/-- Fixed-variant `SignalProcessor::calculateMean` over the filled recent
slots. -/
def SignalProcessorF.calcMean (s : SignalProcessorF) : ℚ :=
  if s.recent_count = 0 then 0
  else (∑ i ∈ Finset.range s.recent_count, s.recent i) / (s.recent_count : ℚ)

/-- Fixed-variant `SignalProcessor::calculateStdDev` (Bessel corrected). -/
noncomputable def SignalProcessorF.calcStdDev (s : SignalProcessorF) (mean : ℚ) : ℝ :=
  if s.recent_count < 2 then 0
  else Real.sqrt
    (((∑ i ∈ Finset.range s.recent_count, (s.recent i - mean) * (s.recent i - mean) : ℚ) : ℝ)
      / ((s.recent_count - 1 : ℕ) : ℝ))

/-- Fixed-variant `SignalProcessor::isOutlier(value)`: false under 3 recent
values, false when the standard deviation is below `0.001`, else z-score
against `config.outlier_threshold`. -/
noncomputable def SignalProcessorF.isOutlier (s : SignalProcessorF) (value : ℚ) : Prop :=
  if s.recent_count < 3 then False
  else
    let mean := s.calcMean
    let std_dev := s.calcStdDev mean
    if std_dev < 1/1000 then False
    else (s.config.outlier_threshold : ℝ) < |(value : ℝ) - (mean : ℝ)| / std_dev

/-- Fixed-variant `SignalProcessor::isPeak(value)`: was-rising-now-falling
test, magnitude gate only when at least one recent value exists, and an
unconditional update of `prev_value` and `rising`. -/
def SignalProcessorF.isPeak (s : SignalProcessorF) (value : ℚ) : SignalProcessorF × Bool :=
  let current_rising := decide (s.prev_value < value)
  let isp := s.rising && !current_rising
  let isp := if isp ∧ 0 < s.recent_count then
      decide (s.calcMean * s.config.peak_threshold < |value - s.prev_value|)
    else isp
  ({ s with prev_value := value, rising := current_rising }, isp)

open Classical in
/-- Fixed-variant `SignalProcessor::calculateSignalQuality`: `int` quality
starting at 100 with the three deductions, clamped to `[0,100]` and cast to
`uint8_t`. -/
noncomputable def SignalProcessorF.calculateSignalQuality (snr : ℚ) (outlier : Prop)
    (conf : ℝ) : ℕ :=
  let q : ℤ := 100
  let q := if snr < 1 then q - 30 else if snr < 2 then q - 15 else q
  let q := if outlier then q - 20 else q
  let q := if conf < (1/2 : ℝ) then q - 10 else q
  (max 0 (min 100 q)).toNat

/-- Fixed-variant `SignalProcessor::processReading`. -/
noncomputable def SignalProcessorF.processReading (s : SignalProcessorF)
    (reading : SensorReading) : SignalProcessorF × SignalAnalysis :=
  let s := { s with recent := fun j => if j = s.recent_index then reading.lux_value else s.recent j,
                    recent_index := (s.recent_index + 1) % MAX_RECENT_VALUES,
                    recent_count := if s.recent_count < MAX_RECENT_VALUES then s.recent_count + 1
                                    else s.recent_count }
  let fp := s.applyFilters reading.lux_value
  let s := fp.1
  let filtered := fp.2
  let noise := (1 - 1/10) * s.noise_level_estimate + (1/10) * |reading.lux_value - filtered|
  let s := { s with noise_level_estimate := noise }
  let is_outlier : Prop := s.config.enable_outlier_removal ∧ s.isOutlier reading.lux_value
  let pk := if s.config.enable_peak_detection then s.isPeak reading.lux_value else (s, false)
  let s := pk.1
  let tr := if s.config.enable_trend_detection then
      s.trend_analyzer.analyzeTrend reading.lux_value
    else (s.trend_analyzer, ⟨0, 0, False, False⟩)
  let s := { s with trend_analyzer := tr.1 }
  let snr := if 1/1000 < filtered then filtered / max noise (1/1000) else 0
  let quality := SignalProcessorF.calculateSignalQuality snr is_outlier tr.2.confidence
  ({ s with signal_quality := quality },
   { filtered_value := filtered, noise_level := noise, snr := snr,
     is_outlier := is_outlier, is_peak := pk.2, trend_slope := tr.2.slope,
     trend_confidence := tr.2.confidence, quality_score := quality })

/-- Fixed-variant `SignalProcessor::configure`: store the config, recompute
the enable flags, re-window the trend analyzer, update the adaptive filter's
tunables, and `reset()` every filter's state, the recent window, the noise
estimate and the carried peak state.  The member filters keep their
construction-time windows and low-pass coefficient. -/
def SignalProcessorF.configure (s : SignalProcessorF) (c : SignalConfig) : SignalProcessorF :=
  { config := c,
    ma_filter := s.ma_filter.reset,
    lp_filter := ⟨s.lp_filter.alpha, 0⟩,
    median_filter := s.median_filter.reset,
    adaptive_filter := ⟨c.adaptation_rate, c.noise_floor, 1/2, 0, 0⟩,
    trend_analyzer := s.trend_analyzer.setWindowSize c.trend_window,
    ma_enabled := decide (1 < c.moving_average_window),
    lp_enabled := decide (0 < c.low_pass_cutoff),
    median_enabled := c.enable_median_filter,
    adaptive_enabled := c.enable_adaptive_filter,
    recent := fun _ => 0, recent_index := 0, recent_count := 0,
    noise_level_estimate := 0, signal_quality := 50,
    prev_value := 0, rising := false }

/-- Fixed-variant `SignalProcessor::setFilterEnabled`: toggle exactly the
selected flag (`HIGH_PASS` falls to the default branch and changes nothing). -/
def SignalProcessorF.setFilterEnabled (s : SignalProcessorF) (ft : FilterType)
    (en : Bool) : SignalProcessorF :=
  match ft with
  | .MOVING_AVERAGE => { s with ma_enabled := en }
  | .LOW_PASS => { s with lp_enabled := en }
  | .MEDIAN => { s with median_enabled := en }
  | .ADAPTIVE => { s with adaptive_enabled := en }
  | .HIGH_PASS => s

/-- Feed a sequence of lux values through the fixed-variant processor. -/
noncomputable def SignalProcessorF.run (s : SignalProcessorF) (l : List ℚ) : SignalProcessorF :=
  l.foldl (fun st x => (st.processReading (mkReading x)).1) s

-- Concrete configurations and states used as test inputs below.

/-- A configuration with every optional stage disabled and outlier threshold
2 (the data sheet's default). -/
def cfgQuiet : SignalConfig :=
  { moving_average_window := 1, low_pass_cutoff := 0, high_pass_cutoff := 0,
    enable_median_filter := false, median_window := 1, noise_threshold := 0,
    enable_outlier_removal := true, outlier_threshold := 2,
    enable_trend_detection := false, trend_window := 5,
    enable_peak_detection := false, peak_threshold := 1/10,
    enable_adaptive_filter := false, adaptation_rate := 1/10, noise_floor := 1/100 }

/-- A fixed-variant processor state whose recent window holds the three
values 0, 0 and 0.0015: their sample standard deviation is strictly between
0 and the fixed variant's 0.001 guard. -/
def outlierState : SignalProcessorF :=
  { SignalProcessorF.mk' cfgQuiet with
      recent := fun i => if i = 2 then 3/2000 else 0,
      recent_index := 3, recent_count := 3 }

/-- `cfgQuiet` with a positive low-pass cutoff of 0.1 Hz. -/
def cfgLp1 : SignalConfig := { cfgQuiet with low_pass_cutoff := 1/10 }

/-- `cfgQuiet` with a positive low-pass cutoff of 0.2 Hz. -/
def cfgLp2 : SignalConfig := { cfgQuiet with low_pass_cutoff := 1/5 }

-- Quality score: spec-side definition and theorems (claims C1 and C10)

open Classical in
/-- The quality score as the spec states it: start at 100, deduct 30 for
`SNR < 1` (else 15 for `SNR < 2`), 20 for an outlier, 10 for trend
confidence below 0.5, then clamp to `[0, 100]`. -/
noncomputable def specQualityScore (snr : ℚ) (outlier : Prop) (conf : ℝ) : ℤ :=
  max 0 (min 100 (100 - (if snr < 1 then 30 else if snr < 2 then 15 else 0)
    - (if outlier then 20 else 0) - (if conf < (1/2 : ℝ) then 10 else 0)))

lemma calcQuality_eq_spec (snr : ℚ) (outlier : Prop) (conf : ℝ) :
    (SignalProcessor.calculateSignalQuality snr outlier conf : ℤ) =
      specQualityScore snr outlier conf := by
  unfold SignalProcessor.calculateSignalQuality specQualityScore
  split_ifs <;> norm_num

lemma calcQualityF_eq_spec (snr : ℚ) (outlier : Prop) (conf : ℝ) :
    (SignalProcessorF.calculateSignalQuality snr outlier conf : ℤ) =
      specQualityScore snr outlier conf := by
  unfold SignalProcessorF.calculateSignalQuality specQualityScore
  split_ifs <;> norm_num

lemma calcQuality_bounds (snr : ℚ) (outlier : Prop) (conf : ℝ) :
    40 ≤ SignalProcessor.calculateSignalQuality snr outlier conf ∧
      SignalProcessor.calculateSignalQuality snr outlier conf ≤ 100 := by
  unfold SignalProcessor.calculateSignalQuality
  split_ifs <;> norm_num

lemma calcQualityF_bounds (snr : ℚ) (outlier : Prop) (conf : ℝ) :
    40 ≤ SignalProcessorF.calculateSignalQuality snr outlier conf ∧
      SignalProcessorF.calculateSignalQuality snr outlier conf ≤ 100 := by
  unfold SignalProcessorF.calculateSignalQuality
  split_ifs <;> norm_num

lemma processReading_quality (s : SignalProcessor) (r : SensorReading) :
    (s.processReading r).2.quality_score =
      SignalProcessor.calculateSignalQuality (s.processReading r).2.snr
        (s.processReading r).2.is_outlier (s.processReading r).2.trend_confidence := rfl

lemma processReadingF_quality (s : SignalProcessorF) (r : SensorReading) :
    (s.processReading r).2.quality_score =
      SignalProcessorF.calculateSignalQuality (s.processReading r).2.snr
        (s.processReading r).2.is_outlier (s.processReading r).2.trend_confidence := rfl

/-- C1: for every processed sample, the quality score of the returned
analysis is exactly the spec's formula — start at 100, deduct 30 for
`SNR < 1` else 15 for `SNR < 2`, 20 for a flagged outlier, 10 for trend
confidence below 0.5, clamped to `[0, 100]` — in both the dynamic and
fixed-buffer variants. -/
theorem quality_score_matches_spec :
    (∀ (s : SignalProcessor) (r : SensorReading),
        ((s.processReading r).2.quality_score : ℤ) =
          specQualityScore (s.processReading r).2.snr (s.processReading r).2.is_outlier
            (s.processReading r).2.trend_confidence) ∧
    (∀ (s : SignalProcessorF) (r : SensorReading),
        ((s.processReading r).2.quality_score : ℤ) =
          specQualityScore (s.processReading r).2.snr (s.processReading r).2.is_outlier
            (s.processReading r).2.trend_confidence) := by
  constructor
  · intro s r
    rw [processReading_quality]
    exact calcQuality_eq_spec _ _ _
  · intro s r
    rw [processReadingF_quality]
    exact calcQualityF_eq_spec _ _ _

-- Adaptive filter coefficient invariant (claim C8)

lemma adaptive_step_coeff (f : AdaptiveFilter) (x : ℚ) (hr : 0 ≤ f.adaptation_rate)
    (h : 1/10 ≤ f.filter_coefficient ∧ f.filter_coefficient ≤ 9/10) :
    1/10 ≤ (f.process x).1.filter_coefficient ∧
      (f.process x).1.filter_coefficient ≤ 9/10 := by
  unfold AdaptiveFilter.process
  simp only
  split_ifs
  · refine ⟨le_min (by norm_num) ?_, min_le_left _ _⟩
    have : (0 : ℚ) ≤ f.adaptation_rate * (1/10) := by positivity
    linarith [h.1]
  · refine ⟨le_max_left _ _, max_le (by norm_num) ?_⟩
    have : (0 : ℚ) ≤ f.adaptation_rate * (1/10) := by positivity
    linarith [h.2]

lemma adaptive_run_coeff (f : AdaptiveFilter) (l : List ℚ) (hr : 0 ≤ f.adaptation_rate)
    (h : 1/10 ≤ f.filter_coefficient ∧ f.filter_coefficient ≤ 9/10) :
    1/10 ≤ (f.run l).filter_coefficient ∧ (f.run l).filter_coefficient ≤ 9/10 := by
  induction l generalizing f with
  | nil => exact h
  | cons x xs ih =>
    have hrun : f.run (x :: xs) = ((f.process x).1).run xs := rfl
    rw [hrun]
    exact ih _ hr (adaptive_step_coeff f x hr h)

/-- C8 (amended): for every nonnegative adaptation rate, every noise floor
and every input sequence, the adaptive filter's smoothing coefficient stays
in `[0.1, 0.9]` after every call, starting from the reset value 0.5.  (For a
negative rate the bound fails; see the counterexample.) -/
theorem adaptive_coefficient_in_bounds (rate floor : ℚ) (l : List ℚ) (hr : 0 ≤ rate) :
    1/10 ≤ ((AdaptiveFilter.mk' rate floor).run l).filter_coefficient ∧
      ((AdaptiveFilter.mk' rate floor).run l).filter_coefficient ≤ 9/10 :=
  adaptive_run_coeff _ _ hr (by norm_num [AdaptiveFilter.mk'])

/-- C8 witness: the bound at a concrete rate, floor and input sequence. -/
theorem adaptive_coefficient_in_bounds_witness :
    1/10 ≤ ((AdaptiveFilter.mk' (1/10) 0).run [1, 2]).filter_coefficient ∧
      ((AdaptiveFilter.mk' (1/10) 0).run [1, 2]).filter_coefficient ≤ 9/10 :=
  adaptive_coefficient_in_bounds (1/10) 0 [1, 2] (by norm_num)

/-- C8 counterexample: with adaptation rate −10 and noise floor −1000 the
very first call (input 1) drives the coefficient to −0.5, outside
`[0.1, 0.9]`, refuting the claim's "for every adaptation rate and noise
floor". -/
theorem adaptive_coefficient_counterexample :
    ((AdaptiveFilter.mk' (-10) (-1000)).run [1]).filter_coefficient = -(1/2) ∧
      ¬ 1/10 ≤ ((AdaptiveFilter.mk' (-10) (-1000)).run [1]).filter_coefficient := by
  norm_num [AdaptiveFilter.run, AdaptiveFilter.process, AdaptiveFilter.mk']

-- Sliding-window buffer invariant, shared by the moving-average and median
-- filters (claims C6 and C7): push then evict-oldest keeps exactly the last
-- min(window, samples_seen) inputs.

lemma takeLast_all {k : ℕ} {l : List ℚ} (h : l.length ≤ k) : takeLast k l = l := by
  unfold takeLast
  rw [Nat.sub_eq_zero_of_le h, List.drop_zero]

lemma takeLast_length (k : ℕ) (l : List ℚ) :
    (takeLast k l).length = min k l.length := by
  unfold takeLast
  rw [List.length_drop]
  omega

lemma window_step (w : ℕ) (l : List ℚ) (x : ℚ) :
    (if w < (takeLast (min w l.length) l ++ [x]).length
       then (takeLast (min w l.length) l ++ [x]).tail
       else takeLast (min w l.length) l ++ [x]) =
      takeLast (min w (l.length + 1)) (l ++ [x]) := by
  rcases lt_or_le l.length w with hn | hw
  · rw [min_eq_right hn.le, takeLast_all le_rfl, if_neg (by simp; omega)]
    rw [takeLast_all (by simp; omega)]
  · have hlen : (takeLast (min w l.length) l).length = w := by
      rw [takeLast_length]; omega
    rw [if_pos (by rw [List.length_append, hlen]; simp)]
    rcases Nat.eq_zero_or_pos w with hw0 | hw1
    · subst hw0
      have h1 : takeLast 0 l = [] := by
        unfold takeLast; simp
      have h2 : takeLast 0 (l ++ [x]) = [] := by
        unfold takeLast; simp
      simp [h1, h2]
    · rw [min_eq_left hw, min_eq_left (by omega)]
      unfold takeLast
      have h1 : List.drop (l.length - w) l ≠ [] :=
        List.length_pos.mp (by rw [List.length_drop]; omega)
      rw [List.tail_append_of_ne_nil h1, List.tail_drop,
        List.drop_append_of_le_length (by simp; omega)]
      have h2 : (l ++ [x]).length - w = l.length - w + 1 := by simp; omega
      rw [h2]

lemma takeLast_concat_small (W : ℕ) (l : List ℚ) (x : ℚ) (h : l.length < W) :
    takeLast (min W (l.length + 1)) (l ++ [x]) = l ++ [x] := by
  apply takeLast_all
  simp
  omega

lemma takeLast_concat_full (W : ℕ) (l : List ℚ) (x : ℚ) (hW : 1 ≤ W) (h : W ≤ l.length) :
    takeLast W (l ++ [x]) = (takeLast W l).tail ++ [x] := by
  have hstep := window_step W l x
  rw [min_eq_left h, min_eq_left (by omega)] at hstep
  rw [if_pos (by rw [List.length_append, takeLast_length, min_eq_left h]; simp)] at hstep
  rw [← hstep, List.tail_append_of_ne_nil]
  exact List.length_pos.mp (by rw [takeLast_length]; omega)

lemma add_mod_ne_of_lt {a k W : ℕ} (ha : a < W) (h0 : 0 < k) (hk : k < W) :
    (a + k) % W ≠ a := by
  intro h
  rcases lt_or_le (a + k) W with h2 | h2
  · rw [Nat.mod_eq_of_lt h2] at h
    omega
  · rw [Nat.mod_eq_sub_mod h2, Nat.mod_eq_of_lt (by omega)] at h
    omega

lemma add_mod_injOn (k W : ℕ) :
    Set.InjOn (fun i => (k + i) % W) (Finset.range W) := by
  intro a ha b hb hab
  simp only [Finset.coe_range, Set.mem_Iio] at ha hb
  dsimp only at hab
  rcases le_total a b with hle | hle
  · have hdvd : W ∣ (k + b) - (k + a) :=
      (Nat.modEq_iff_dvd' (by omega)).mp hab
    have heq : (k + b) - (k + a) = b - a := by omega
    rw [heq] at hdvd
    have := Nat.eq_zero_of_dvd_of_lt hdvd
    omega
  · have hdvd : W ∣ (k + a) - (k + b) :=
      (Nat.modEq_iff_dvd' (by omega)).mp hab.symm
    have heq : (k + a) - (k + b) = a - b := by omega
    rw [heq] at hdvd
    have := Nat.eq_zero_of_dvd_of_lt hdvd
    omega

lemma rotate_mod_image (k W : ℕ) (hW : 0 < W) :
    Finset.image (fun i => (k + i) % W) (Finset.range W) = Finset.range W := by
  apply Finset.eq_of_subset_of_card_le
  · intro y hy
    simp only [Finset.mem_image, Finset.mem_range] at hy ⊢
    obtain ⟨i, -, rfl⟩ := hy
    exact Nat.mod_lt _ hW
  · rw [Finset.card_image_of_injOn (add_mod_injOn k W)]

lemma map_mod_rotate_perm (g : ℕ → ℚ) (k W : ℕ) :
    ((List.range W).map (fun i => g ((k + i) % W))).Perm ((List.range W).map g) := by
  rcases Nat.eq_zero_or_pos W with h0 | hW
  · subst h0
    rfl
  · rw [← Multiset.coe_eq_coe]
    have h1 : (((List.range W).map (fun i => g ((k + i) % W)) : List ℚ) : Multiset ℚ) =
        Multiset.map g (Multiset.map (fun i => (k + i) % W) (Multiset.range W)) := by
      rw [Multiset.map_map]
      rfl
    have h2 : Multiset.map (fun i => (k + i) % W) (Multiset.range W) = Multiset.range W := by
      have himg := rotate_mod_image k W hW
      have := congrArg Finset.val himg
      rwa [Finset.image_val_of_injOn (add_mod_injOn k W), Finset.range_val] at this
    rw [h1, h2]
    rfl

lemma ringWin_small (W n : ℕ) (buf : ℕ → ℚ) (h : n < W) :
    ringWin W n n buf = (List.range n).map buf := by
  unfold ringWin
  apply List.map_congr_left
  intro i hi
  rw [List.mem_range] at hi
  congr 1
  have h1 : n + (W - n) + i = W + i := by omega
  rw [h1, Nat.add_mod_left, Nat.mod_eq_of_lt (by omega)]

lemma ringWin_full_cons (W a : ℕ) (buf : ℕ → ℚ) (hW : 1 ≤ W) (ha : a < W) :
    ringWin W W a buf =
      buf a :: (List.range (W - 1)).map (fun i => buf ((a + 1 + i) % W)) := by
  unfold ringWin
  have hr : List.range W = 0 :: (List.range (W - 1)).map Nat.succ := by
    conv_lhs => rw [show W = W - 1 + 1 by omega]
    exact List.range_succ_eq_map (W - 1)
  rw [hr, List.map_cons, List.map_map]
  congr 1
  · congr 1
    rw [Nat.sub_self]
    simpa using Nat.mod_eq_of_lt ha
  · apply List.map_congr_left
    intro i hi
    simp only [Function.comp]
    congr 1
    rw [Nat.sub_self]
    congr 1
    omega

lemma ringWin_step (W : ℕ) (hW : 1 ≤ W) (l : List ℚ) (x : ℚ) (buf : ℕ → ℚ)
    (hwin : ringWin W (min l.length W) (l.length % W) buf = takeLast (min W l.length) l) :
    ringWin W (min (l.length + 1) W) ((l.length + 1) % W)
        (fun j => if j = l.length % W then x else buf j) =
      takeLast (min W (l.length + 1)) (l ++ [x]) := by
  rcases lt_or_le l.length W with hnW | hWn
  · -- window not yet full: contents are simply extended by x
    have hmod : l.length % W = l.length := Nat.mod_eq_of_lt hnW
    have hwin' : (List.range l.length).map buf = l := by
      rw [min_eq_left (by omega), hmod, ringWin_small W l.length buf hnW,
        takeLast_all (by omega)] at hwin
      exact hwin
    simp only [hmod]
    have hslot : ∀ i, i ≤ l.length →
        ((l.length + 1) % W + (W - (l.length + 1)) + i) % W = i := by
      intro i hi
      rcases lt_or_le (l.length + 1) W with h1 | h1
      · rw [Nat.mod_eq_of_lt h1]
        have h2 : l.length + 1 + (W - (l.length + 1)) + i = W + i := by omega
        rw [h2, Nat.add_mod_left, Nat.mod_eq_of_lt (by omega)]
      · have h2 : l.length + 1 = W := by omega
        have hm : (l.length + 1) % W = 0 := by rw [h2, Nat.mod_self]
        have hs : W - (l.length + 1) = 0 := by omega
        rw [hm, hs]
        simp only [Nat.zero_add]
        exact Nat.mod_eq_of_lt (by omega)
    have hmain : ringWin W (min (l.length + 1) W) ((l.length + 1) % W)
        (fun j => if j = l.length then x else buf j) =
        (List.range l.length).map buf ++ [x] := by
      rw [min_eq_left (by omega : l.length + 1 ≤ W)]
      unfold ringWin
      rw [List.range_succ, List.map_append]
      congr 1
      · apply List.map_congr_left
        intro i hi
        rw [List.mem_range] at hi
        simp only [hslot i (by omega)]
        rw [if_neg (by omega)]
      · simp only [List.map_cons, List.map_nil, hslot l.length le_rfl]
        simp
    rw [hmain, hwin', min_eq_right (by omega : l.length + 1 ≤ W), takeLast_all (by simp)]
  · -- full window: drop the oldest slot, write x into it
    have haW : l.length % W < W := Nat.mod_lt _ (by omega)
    have hidx : (l.length + 1) % W = (l.length % W + 1) % W :=
      (Nat.mod_add_mod l.length W 1).symm
    rw [min_eq_right (by omega : W ≤ l.length), min_eq_left (by omega : W ≤ l.length)] at hwin
    rw [min_eq_right (by omega : W ≤ l.length + 1), min_eq_left (by omega : W ≤ l.length + 1),
      takeLast_concat_full W l x hW hWn, ← hwin,
      ringWin_full_cons W (l.length % W) buf hW haW, List.tail_cons]
    unfold ringWin
    simp only [Nat.sub_self, Nat.add_zero]
    have hrange : List.range W = List.range (W - 1) ++ [W - 1] := by
      conv_lhs => rw [show W = W - 1 + 1 by omega]
      exact List.range_succ (W - 1)
    rw [hrange, List.map_append]
    congr 1
    · apply List.map_congr_left
      intro i hi
      rw [List.mem_range] at hi
      have e1 : ((l.length + 1) % W + i) % W = (l.length % W + 1 + i) % W := by
        rw [hidx, Nat.mod_add_mod]
      have e2 : (l.length % W + 1 + i) % W ≠ l.length % W := by
        have h5 : l.length % W + 1 + i = l.length % W + (1 + i) := by omega
        rw [h5]
        exact add_mod_ne_of_lt haW (by omega) (by omega)
      simp only [e1]
      rw [if_neg e2]
    · simp only [List.map_cons, List.map_nil]
      have e3 : ((l.length + 1) % W + (W - 1)) % W = l.length % W := by
        rw [hidx, Nat.mod_add_mod]
        have e4 : l.length % W + 1 + (W - 1) = l.length % W + W := by omega
        rw [e4, Nat.add_mod_right, Nat.mod_eq_of_lt haW]
      simp only [e3]
      simp

lemma medianOf_perm (a b : List ℚ) (h : a.Perm b) : medianOf a = medianOf b := by
  unfold medianOf
  have hs : a.insertionSort (· ≤ ·) = b.insertionSort (· ≤ ·) :=
    List.eq_of_perm_of_sorted
      (((List.perm_insertionSort _ a).trans h).trans (List.perm_insertionSort _ b).symm)
      (List.sorted_insertionSort _ a) (List.sorted_insertionSort _ b)
  rw [hs]

lemma ringWin_full_perm (W idx : ℕ) (buf : ℕ → ℚ) :
    (ringWin W W idx buf).Perm ((List.range W).map buf) := by
  unfold ringWin
  simp only [Nat.sub_self, Nat.add_zero]
  exact map_mod_rotate_perm buf idx W

lemma maF_run_concat (w : ℕ) (l : List ℚ) (x : ℚ) :
    (MAFilterF.mk' w).run (l ++ [x]) = (((MAFilterF.mk' w).run l).process x).1 := by
  unfold MAFilterF.run
  rw [List.foldl_append, List.foldl_cons, List.foldl_nil]

lemma maF_run_invariant (w : ℕ) (hw : 1 ≤ w) (l : List ℚ) :
    ((MAFilterF.mk' w).run l).window_size = min w MAX_FILTER_WINDOW ∧
    ((MAFilterF.mk' w).run l).count = min l.length (min w MAX_FILTER_WINDOW) ∧
    ((MAFilterF.mk' w).run l).index = l.length % min w MAX_FILTER_WINDOW ∧
    ringWin (min w MAX_FILTER_WINDOW) ((MAFilterF.mk' w).run l).count
        ((MAFilterF.mk' w).run l).index ((MAFilterF.mk' w).run l).buf =
      takeLast (min (min w MAX_FILTER_WINDOW) l.length) l ∧
    ((MAFilterF.mk' w).run l).sum =
      (takeLast (min (min w MAX_FILTER_WINDOW) l.length) l).sum := by
  have hW : 1 ≤ min w MAX_FILTER_WINDOW := le_min hw (by norm_num [MAX_FILTER_WINDOW])
  induction l using List.reverseRecOn with
  | nil =>
    refine ⟨rfl, by simp [MAFilterF.run, MAFilterF.mk'], by simp [MAFilterF.run, MAFilterF.mk'],
      ?_, by simp [MAFilterF.run, MAFilterF.mk', takeLast]⟩
    simp [ringWin, takeLast, MAFilterF.run, MAFilterF.mk']
  | append_singleton l x ih =>
    obtain ⟨ihw, ihc, ihi, ihwin, ihsum⟩ := ih
    rw [ihc, ihi] at ihwin
    have hlen1 : (l ++ [x]).length = l.length + 1 := by simp
    rw [maF_run_concat]
    unfold MAFilterF.process
    simp only [ihw, ihc, ihi, hlen1]
    have hcount : (if min l.length (min w MAX_FILTER_WINDOW) < min w MAX_FILTER_WINDOW
        then min l.length (min w MAX_FILTER_WINDOW) + 1
        else min l.length (min w MAX_FILTER_WINDOW)) =
        min (l.length + 1) (min w MAX_FILTER_WINDOW) := by
      split_ifs <;> omega
    have hindex : (l.length % min w MAX_FILTER_WINDOW + 1) % min w MAX_FILTER_WINDOW =
        (l.length + 1) % min w MAX_FILTER_WINDOW := Nat.mod_add_mod l.length _ 1
    have hstep := ringWin_step (min w MAX_FILTER_WINDOW) hW l x
      ((MAFilterF.mk' w).run l).buf ihwin
    refine ⟨trivial, hcount, hindex, ?_, ?_⟩
    · rw [hcount, hindex]
      exact hstep
    · rcases lt_or_le l.length (min w MAX_FILTER_WINDOW) with hnW | hWn
      · rw [if_neg (by omega), takeLast_concat_small _ l x hnW, ihsum,
          min_eq_right (by omega : l.length ≤ min w MAX_FILTER_WINDOW), takeLast_all le_rfl]
        simp
      · rw [if_pos (by omega)]
        have hwin2 := ihwin
        rw [min_eq_right (by omega : min w MAX_FILTER_WINDOW ≤ l.length),
          min_eq_left (by omega : min w MAX_FILTER_WINDOW ≤ l.length)] at hwin2
        rw [ringWin_full_cons _ _ _ hW (Nat.mod_lt _ (by omega))] at hwin2
        rw [min_eq_left (by omega : min w MAX_FILTER_WINDOW ≤ l.length + 1),
          takeLast_concat_full _ l x hW (by omega), ← hwin2, List.tail_cons,
          ihsum, min_eq_left (by omega : min w MAX_FILTER_WINDOW ≤ l.length), ← hwin2]
        simp only [List.sum_cons, List.sum_append, List.sum_nil]
        ring

lemma maF_process_out (f : MAFilterF) (y : ℚ) :
    (f.process y).2 = (f.process y).1.sum / (((f.process y).1.count : ℕ) : ℚ) := rfl

lemma ma_semantics_fixed (w : ℕ) (hw : 1 ≤ w) (l : List ℚ) (x : ℚ) :
    (((MAFilterF.mk' w).run l).process x).2 =
      listMean (takeLast (min (min w MAX_FILTER_WINDOW) (l.length + 1)) (l ++ [x])) := by
  have hinv := maF_run_invariant w hw (l ++ [x])
  rw [maF_run_concat] at hinv
  have hlen1 : (l ++ [x]).length = l.length + 1 := by simp
  rw [hlen1] at hinv
  rw [maF_process_out, hinv.2.2.2.2, hinv.2.1]
  unfold listMean
  rw [takeLast_length]
  congr 1
  norm_cast
  omega

lemma ma_run_invariant (w : ℕ) (l : List ℚ) :
    ((MovingAverageFilter.mk' w).run l).window_size = w ∧
    ((MovingAverageFilter.mk' w).run l).buffer = takeLast (min w l.length) l ∧
    ((MovingAverageFilter.mk' w).run l).sum = (takeLast (min w l.length) l).sum := by
  induction l using List.reverseRecOn with
  | nil => refine ⟨rfl, ?_, ?_⟩ <;> simp [MovingAverageFilter.run, MovingAverageFilter.mk', takeLast]
  | append_singleton l x ih =>
    obtain ⟨hw, hbuf, hsum⟩ := ih
    have hrun : (MovingAverageFilter.mk' w).run (l ++ [x]) =
        (((MovingAverageFilter.mk' w).run l).process x).1 := by
      unfold MovingAverageFilter.run
      rw [List.foldl_append, List.foldl_cons, List.foldl_nil]
    have hstep := window_step w l x
    have hlen1 : (l ++ [x]).length = l.length + 1 := by simp
    rw [hrun]
    unfold MovingAverageFilter.process
    simp only [hw, hbuf, hsum, apply_ite Prod.fst, apply_ite Prod.snd, hlen1]
    refine ⟨trivial, hstep, ?_⟩
    by_cases hc : w < (takeLast (min w l.length) l ++ [x]).length
    · rw [if_pos hc] at hstep ⊢
      have hne : takeLast (min w l.length) l ++ [x] ≠ [] := by simp
      obtain ⟨b, bs, hcons⟩ := List.exists_cons_of_ne_nil hne
      rw [← hstep, hcons]
      have hsum2 : (takeLast (min w l.length) l).sum + x = b + bs.sum := by
        have h3 : (takeLast (min w l.length) l ++ [x]).sum = (b :: bs).sum := by rw [hcons]
        simpa using h3
      simp only [List.tail_cons, List.headI_cons]
      linarith [hsum2]
    · rw [if_neg hc] at hstep ⊢
      rw [← hstep]
      simp

lemma ma_process_out (f : MovingAverageFilter) (y : ℚ) :
    (f.process y).2 = (f.process y).1.sum / ((f.process y).1.buffer.length : ℚ) := rfl

lemma ma_run_concat (w : ℕ) (l : List ℚ) (x : ℚ) :
    (MovingAverageFilter.mk' w).run (l ++ [x]) =
      (((MovingAverageFilter.mk' w).run l).process x).1 := by
  unfold MovingAverageFilter.run
  rw [List.foldl_append, List.foldl_cons, List.foldl_nil]

/-- C6 (amended): for every window size `w ≥ 1`, every already-fed input
sequence and every next input `x`, the dynamic moving-average filter returns
the arithmetic mean of the last `min(w, samples_seen)` inputs including `x`,
and the fixed-buffer variant the mean of the last
`min(min(w, MAX_FILTER_WINDOW), samples_seen)` inputs (its constructor caps
the window at `MAX_FILTER_WINDOW`); in particular both are pass-throughs for
`w = 1`.  (For `w = 0` the code divides by zero; see the counterexample.) -/
theorem moving_average_is_window_mean (w : ℕ) (l : List ℚ) (x : ℚ) (hw : 1 ≤ w) :
    ((((MovingAverageFilter.mk' w).run l).process x).2 =
        listMean (takeLast (min w (l.length + 1)) (l ++ [x])) ∧
      (w = 1 → (((MovingAverageFilter.mk' w).run l).process x).2 = x)) ∧
    ((((MAFilterF.mk' w).run l).process x).2 =
        listMean (takeLast (min (min w MAX_FILTER_WINDOW) (l.length + 1)) (l ++ [x])) ∧
      (w = 1 → (((MAFilterF.mk' w).run l).process x).2 = x)) := by
  have h2 : takeLast 1 (l ++ [x]) = [x] := by
    unfold takeLast
    rw [show (l ++ [x]).length - 1 = l.length by simp,
      List.drop_append_of_le_length le_rfl]
    simp
  have hinv := ma_run_invariant w (l ++ [x])
  have hlen1 : (l ++ [x]).length = l.length + 1 := by simp
  rw [hlen1] at hinv
  have h1 : (((MovingAverageFilter.mk' w).run l).process x).2 =
      listMean (takeLast (min w (l.length + 1)) (l ++ [x])) := by
    rw [ma_process_out, ← ma_run_concat, hinv.2.2, hinv.2.1]
    rfl
  have hfix := ma_semantics_fixed w hw l x
  refine ⟨⟨h1, fun hw1 => ?_⟩, hfix, fun hw1 => ?_⟩
  · subst hw1
    rw [h1, min_eq_left (by omega), h2]
    unfold listMean
    simp
  · subst hw1
    have hmin : min (min 1 MAX_FILTER_WINDOW) (l.length + 1) = 1 := by
      rw [show MAX_FILTER_WINDOW = 16 from rfl]
      omega
    rw [hfix, hmin, h2]
    unfold listMean
    simp

/-- C6 witness: window 2 over inputs `[1]` then `3` returns the mean `2` in
both variants. -/
theorem moving_average_is_window_mean_witness :
    (((((MovingAverageFilter.mk' 2).run [1]).process 3).2 =
          listMean (takeLast (min 2 ([1].length + 1)) ([1] ++ [3])) ∧
        (2 = 1 → (((MovingAverageFilter.mk' 2).run [1]).process 3).2 = 3)) ∧
      ((((MAFilterF.mk' 2).run [1]).process 3).2 =
          listMean (takeLast (min (min 2 MAX_FILTER_WINDOW) ([1].length + 1)) ([1] ++ [3])) ∧
        (2 = 1 → (((MAFilterF.mk' 2).run [1]).process 3).2 = 3))) ∧
    listMean (takeLast (min 2 ([1].length + 1)) (([1] : List ℚ) ++ [3])) = 2 :=
  ⟨moving_average_is_window_mean 2 [1] 3 (by norm_num),
    by norm_num [listMean, takeLast]⟩

/-- C6 counterexample: with window size 0 the code divides by zero — the
buffer is evicted down to length 0 and `sum/size` is `0/0` (embedded as 0;
`NaN` in C++ float arithmetic) — so `process 5` does not return 5 and the
claim's "pass-through for every window size ≤ 1" fails at `w = 0`. -/
theorem moving_average_passthrough_counterexample :
    ((MovingAverageFilter.mk' 0).process 5).2 = 0 ∧ (0 : ℚ) ≠ 5 := by
  constructor
  · norm_num [MovingAverageFilter.process, MovingAverageFilter.mk']
  · norm_num

-- Median filter window semantics (claim C7)

lemma medianF_run_concat (w : ℕ) (l : List ℚ) (x : ℚ) :
    (MedianFilterF.mk' w).run (l ++ [x]) = (((MedianFilterF.mk' w).run l).process x).1 := by
  unfold MedianFilterF.run
  rw [List.foldl_append, List.foldl_cons, List.foldl_nil]

lemma medianF_process_fst (f : MedianFilterF) (x : ℚ) :
    (f.process x).1 = ⟨f.window_size, fun j => if j = f.index then x else f.buf j,
      (f.index + 1) % f.window_size,
      if f.count < f.window_size then f.count + 1 else f.count⟩ := by
  unfold MedianFilterF.process
  simp only []
  split_ifs <;> rfl

lemma medianF_process_out (f : MedianFilterF) (x : ℚ) :
    (f.process x).2 =
      (if (if f.count < f.window_size then f.count + 1 else f.count) < 3 then x
       else medianOf ((List.range
           (if f.count < f.window_size then f.count + 1 else f.count)).map
         (fun j => if j = f.index then x else f.buf j))) := by
  unfold MedianFilterF.process
  simp only []
  split_ifs <;> rfl

lemma medianF_run_invariant (w : ℕ) (hw : 1 ≤ w) (l : List ℚ) :
    ((MedianFilterF.mk' w).run l).window_size = min w MAX_FILTER_WINDOW ∧
    ((MedianFilterF.mk' w).run l).count = min l.length (min w MAX_FILTER_WINDOW) ∧
    ((MedianFilterF.mk' w).run l).index = l.length % min w MAX_FILTER_WINDOW ∧
    ringWin (min w MAX_FILTER_WINDOW) ((MedianFilterF.mk' w).run l).count
        ((MedianFilterF.mk' w).run l).index ((MedianFilterF.mk' w).run l).buf =
      takeLast (min (min w MAX_FILTER_WINDOW) l.length) l := by
  have hW : 1 ≤ min w MAX_FILTER_WINDOW := le_min hw (by norm_num [MAX_FILTER_WINDOW])
  induction l using List.reverseRecOn with
  | nil =>
    refine ⟨rfl, by simp [MedianFilterF.run, MedianFilterF.mk'],
      by simp [MedianFilterF.run, MedianFilterF.mk'], ?_⟩
    simp [ringWin, takeLast, MedianFilterF.run, MedianFilterF.mk']
  | append_singleton l x ih =>
    obtain ⟨ihw, ihc, ihi, ihwin⟩ := ih
    rw [ihc, ihi] at ihwin
    have hlen1 : (l ++ [x]).length = l.length + 1 := by simp
    rw [medianF_run_concat, medianF_process_fst]
    simp only [ihw, ihc, ihi, hlen1]
    have hcount : (if min l.length (min w MAX_FILTER_WINDOW) < min w MAX_FILTER_WINDOW
        then min l.length (min w MAX_FILTER_WINDOW) + 1
        else min l.length (min w MAX_FILTER_WINDOW)) =
        min (l.length + 1) (min w MAX_FILTER_WINDOW) := by
      split_ifs <;> omega
    have hindex : (l.length % min w MAX_FILTER_WINDOW + 1) % min w MAX_FILTER_WINDOW =
        (l.length + 1) % min w MAX_FILTER_WINDOW := Nat.mod_add_mod l.length _ 1
    have hstep := ringWin_step (min w MAX_FILTER_WINDOW) hW l x
      ((MedianFilterF.mk' w).run l).buf ihwin
    refine ⟨trivial, hcount, hindex, ?_⟩
    rw [hcount, hindex]
    exact hstep

lemma median_semantics_fixed (w : ℕ) (hw : 1 ≤ w) (l : List ℚ) (x : ℚ) :
    (((MedianFilterF.mk' w).run l).process x).2 =
      (if (takeLast (min (min w MAX_FILTER_WINDOW) (l.length + 1)) (l ++ [x])).length < 3
       then x
       else medianOf (takeLast (min (min w MAX_FILTER_WINDOW) (l.length + 1)) (l ++ [x]))) := by
  have hW : 1 ≤ min w MAX_FILTER_WINDOW := le_min hw (by norm_num [MAX_FILTER_WINDOW])
  obtain ⟨hfw, hfc, hfi, hfwin⟩ := medianF_run_invariant w hw l
  rw [hfc, hfi] at hfwin
  have hstep := ringWin_step (min w MAX_FILTER_WINDOW) hW l x
    ((MedianFilterF.mk' w).run l).buf hfwin
  rw [medianF_process_out, hfw, hfc, hfi]
  have hcount : (if min l.length (min w MAX_FILTER_WINDOW) < min w MAX_FILTER_WINDOW
      then min l.length (min w MAX_FILTER_WINDOW) + 1
      else min l.length (min w MAX_FILTER_WINDOW)) =
      min (l.length + 1) (min w MAX_FILTER_WINDOW) := by
    split_ifs <;> omega
  rw [hcount]
  have hlen : (takeLast (min (min w MAX_FILTER_WINDOW) (l.length + 1)) (l ++ [x])).length =
      min (l.length + 1) (min w MAX_FILTER_WINDOW) := by
    rw [takeLast_length]
    simp only [List.length_append, List.length_singleton]
    omega
  rw [hlen]
  by_cases h3 : min (l.length + 1) (min w MAX_FILTER_WINDOW) < 3
  · rw [if_pos h3, if_pos h3]
  · rw [if_neg h3, if_neg h3]
    rcases lt_or_le (l.length + 1) (min w MAX_FILTER_WINDOW) with hs | hf
    · rw [min_eq_left (le_of_lt hs)] at hstep ⊢
      rw [Nat.mod_eq_of_lt hs] at hstep
      rw [← ringWin_small (min w MAX_FILTER_WINDOW) (l.length + 1) _ hs, hstep]
    · rw [min_eq_right hf] at hstep ⊢
      rw [← medianOf_perm _ _ (ringWin_full_perm (min w MAX_FILTER_WINDOW)
        ((l.length + 1) % min w MAX_FILTER_WINDOW)
        (fun j => if j = l.length % min w MAX_FILTER_WINDOW then x
          else ((MedianFilterF.mk' w).run l).buf j)), hstep]

lemma median_run_concat (w : ℕ) (l : List ℚ) (x : ℚ) :
    (MedianFilter.mk' w).run (l ++ [x]) =
      (((MedianFilter.mk' w).run l).process x).1 := by
  unfold MedianFilter.run
  rw [List.foldl_append, List.foldl_cons, List.foldl_nil]

lemma median_run_invariant (w : ℕ) (l : List ℚ) :
    ((MedianFilter.mk' w).run l).window_size = w ∧
    ((MedianFilter.mk' w).run l).buffer = takeLast (min w l.length) l := by
  induction l using List.reverseRecOn with
  | nil => exact ⟨rfl, by simp [MedianFilter.run, MedianFilter.mk', takeLast]⟩
  | append_singleton l x ih =>
    obtain ⟨hw, hbuf⟩ := ih
    have hstep := window_step w l x
    have hlen1 : (l ++ [x]).length = l.length + 1 := by simp
    rw [median_run_concat]
    unfold MedianFilter.process
    simp only [hw, hbuf, hlen1]
    exact ⟨trivial, hstep⟩

/-- C7 (amended): the median filter passes the input through while fewer
than 3 samples are in its window and otherwise returns the median of the
sorted window (mean of the two middle elements at even count); the dynamic
variant's window holds the last `min(w, samples_seen)` inputs, while the
fixed-buffer variant caps the requested window at `MAX_FILTER_WINDOW`, so
for `w ≥ 1` its window holds the last
`min(min(w, MAX_FILTER_WINDOW), samples_seen)` inputs. -/
theorem median_filter_semantics (w : ℕ) (l : List ℚ) (x : ℚ) :
    ((((MedianFilter.mk' w).run l).process x).2 =
      (if (takeLast (min w (l.length + 1)) (l ++ [x])).length < 3 then x
       else medianOf (takeLast (min w (l.length + 1)) (l ++ [x])))) ∧
    (1 ≤ w →
      (((MedianFilterF.mk' w).run l).process x).2 =
        (if (takeLast (min (min w MAX_FILTER_WINDOW) (l.length + 1)) (l ++ [x])).length < 3
         then x
         else medianOf (takeLast (min (min w MAX_FILTER_WINDOW) (l.length + 1)) (l ++ [x])))) := by
  refine ⟨?_, fun hw => median_semantics_fixed w hw l x⟩
  have hinv := median_run_invariant w l
  have hstep := window_step w l x
  unfold MedianFilter.process
  simp only [hinv.1, hinv.2]
  rw [hstep]

/-- C7 witness: window 3 over inputs `[1, 9]` then `4` returns the median 4
in both variants. -/
theorem median_filter_semantics_witness :
    (((((MedianFilter.mk' 3).run [1, 9]).process 4).2 =
        (if (takeLast (min 3 ([1, 9].length + 1)) ([1, 9] ++ [4])).length < 3 then (4 : ℚ)
         else medianOf (takeLast (min 3 ([1, 9].length + 1)) ([1, 9] ++ [4])))) ∧
      ((((MedianFilterF.mk' 3).run [1, 9]).process 4).2 =
        (if (takeLast (min (min 3 MAX_FILTER_WINDOW) ([1, 9].length + 1))
              ([1, 9] ++ [4])).length < 3 then (4 : ℚ)
         else medianOf (takeLast (min (min 3 MAX_FILTER_WINDOW) ([1, 9].length + 1))
              ([1, 9] ++ [4]))))) ∧
    (((MedianFilterF.mk' 3).run [1, 9]).process 4).2 = 4 := by
  have h := median_filter_semantics 3 [1, 9] 4
  refine ⟨⟨h.1, h.2 (by norm_num)⟩, (h.2 (by norm_num)).trans ?_⟩
  norm_num [takeLast, medianOf, List.insertionSort, List.orderedInsert, MAX_FILTER_WINDOW]

/-- C7 counterexample: requesting window 17 from the fixed-buffer variant
caps it at `MAX_FILTER_WINDOW = 16`: after nine 1s and seven 0s, processing a
further 0 returns the median of the last 16 inputs (eight 1s, eight 0s),
namely 1/2, whereas the median of the last `min(17, 17)` inputs (nine 1s,
eight 0s) is 1 — so "median of the last min(w, samples seen) inputs" fails
for the fixed variant at `w = 17`. -/
theorem median_window_cap_counterexample :
    (((MedianFilterF.mk' 17).run
        [1, 1, 1, 1, 1, 1, 1, 1, 1, 0, 0, 0, 0, 0, 0, 0]).process 0).2 = 1/2 ∧
    medianOf (takeLast (min 17 ([1, 1, 1, 1, 1, 1, 1, 1, 1, 0, 0, 0, 0, 0, 0, 0].length + 1))
        (([1, 1, 1, 1, 1, 1, 1, 1, 1, 0, 0, 0, 0, 0, 0, 0] : List ℚ) ++ [0])) = 1 ∧
    (1/2 : ℚ) ≠ 1 := by
  refine ⟨?_, ?_, by norm_num⟩
  · rw [median_semantics_fixed 17 (by norm_num)
      [1, 1, 1, 1, 1, 1, 1, 1, 1, 0, 0, 0, 0, 0, 0, 0] 0]
    norm_num [takeLast, medianOf, List.insertionSort, List.orderedInsert, MAX_FILTER_WINDOW]
  · norm_num [takeLast, medianOf, List.insertionSort, List.orderedInsert]

-- Peak detector state updates (claim C4)

/-- C4 (amended): the carried peak state (`prev_value`, `rising`) updates
independently of whether a peak is reported; in the dynamic variant this
happens on every call with at least 3 buffered recent values (with fewer, the
call returns early leaving the state untouched), and in the fixed-buffer
variant unconditionally on every call. -/
theorem peak_state_update :
    (∀ (d : PeakDetector) (v : ℚ) (recent : List ℚ), 3 ≤ recent.length →
        (d.isPeak v recent).1 = ⟨d.threshold, v, decide (d.prev_value < v)⟩) ∧
    (∀ (s : SignalProcessorF) (v : ℚ),
        (s.isPeak v).1.prev_value = v ∧
          (s.isPeak v).1.rising = decide (s.prev_value < v)) := by
  constructor
  · intro d v recent h
    unfold PeakDetector.isPeak
    rw [if_neg (by omega)]
  · intro s v
    exact ⟨rfl, rfl⟩

/-- C4 witness: a concrete call with 3 buffered values updates the state. -/
theorem peak_state_update_witness :
    (PeakDetector.isPeak ⟨1, 0, false⟩ 5 [1, 2, 3]).1 = ⟨1, 5, decide ((0 : ℚ) < 5)⟩ :=
  peak_state_update.1 ⟨1, 0, false⟩ 5 [1, 2, 3] (by norm_num)

/-- C4 counterexample: in the dynamic variant a call with only 2 buffered
recent values leaves `prev_value` at 0 instead of updating it to the current
input 5, refuting "independently of how many recent values are buffered". -/
theorem peak_state_update_counterexample :
    (PeakDetector.isPeak ⟨1, 0, false⟩ 5 [1, 2]).1.prev_value = 0 ∧ (0 : ℚ) ≠ 5 := by
  refine ⟨?_, by norm_num⟩
  unfold PeakDetector.isPeak
  rw [if_pos (by decide)]

-- setFilterEnabled (claim C3)

/-- C3: `setFilterEnabled` in the dynamic variant is a stub that changes
nothing at all (so toggling does not change which filters participate),
while in the fixed-buffer variant it changes only the enable flags, leaving
every filter's and detector's buffers, the recent-value window, the noise
estimate and the carried peak state untouched. -/
theorem setFilterEnabled_behavior :
    (∀ (s : SignalProcessor) (ft : FilterType) (en : Bool),
        s.setFilterEnabled ft en = s) ∧
    (∀ (s : SignalProcessorF) (ft : FilterType) (en : Bool),
        (s.setFilterEnabled ft en).ma_filter = s.ma_filter ∧
        (s.setFilterEnabled ft en).lp_filter = s.lp_filter ∧
        (s.setFilterEnabled ft en).median_filter = s.median_filter ∧
        (s.setFilterEnabled ft en).adaptive_filter = s.adaptive_filter ∧
        (s.setFilterEnabled ft en).trend_analyzer = s.trend_analyzer ∧
        (s.setFilterEnabled ft en).recent = s.recent ∧
        (s.setFilterEnabled ft en).recent_index = s.recent_index ∧
        (s.setFilterEnabled ft en).recent_count = s.recent_count ∧
        (s.setFilterEnabled ft en).noise_level_estimate = s.noise_level_estimate ∧
        (s.setFilterEnabled ft en).prev_value = s.prev_value ∧
        (s.setFilterEnabled ft en).rising = s.rising ∧
        (s.setFilterEnabled ft en).config = s.config) := by
  refine ⟨fun s ft en => rfl, fun s ft en => ?_⟩
  cases ft <;> simp [SignalProcessorF.setFilterEnabled]

-- configure() versus a freshly constructed pipeline (claim C2)

lemma medianF_process_window (f : MedianFilterF) (x : ℚ) :
    (f.process x).1.window_size = f.window_size := by
  unfold MedianFilterF.process
  simp only []
  split_ifs <;> rfl

lemma maF_process_window (f : MAFilterF) (x : ℚ) :
    (f.process x).1.window_size = f.window_size := rfl

lemma lpF_process_alpha (f : LowPassFilter) (x : ℚ) :
    (f.process x).1.alpha = f.alpha := rfl

lemma processReadingF_frame (s : SignalProcessorF) (r : SensorReading) :
    (s.processReading r).1.ma_filter.window_size = s.ma_filter.window_size ∧
    (s.processReading r).1.median_filter.window_size = s.median_filter.window_size ∧
    (s.processReading r).1.lp_filter.alpha = s.lp_filter.alpha := by
  refine ⟨?_, ?_, ?_⟩ <;>
  · unfold SignalProcessorF.processReading SignalProcessorF.applyFilters
      SignalProcessorF.isPeak
    simp only [apply_ite Prod.fst, apply_ite SignalProcessorF.ma_filter,
      apply_ite SignalProcessorF.median_filter, apply_ite SignalProcessorF.lp_filter,
      apply_ite MAFilterF.window_size, apply_ite MedianFilterF.window_size,
      apply_ite LowPassFilter.alpha, maF_process_window, medianF_process_window,
      lpF_process_alpha, ite_self]

lemma runF_frame (s : SignalProcessorF) (l : List ℚ) :
    (s.run l).ma_filter.window_size = s.ma_filter.window_size ∧
    (s.run l).median_filter.window_size = s.median_filter.window_size ∧
    (s.run l).lp_filter.alpha = s.lp_filter.alpha := by
  induction l generalizing s with
  | nil => exact ⟨rfl, rfl, rfl⟩
  | cons x xs ih =>
    have hrun : s.run (x :: xs) = ((s.processReading (mkReading x)).1).run xs := rfl
    rw [hrun]
    obtain ⟨h1, h2, h3⟩ := ih ((s.processReading (mkReading x)).1)
    obtain ⟨g1, g2, g3⟩ := processReadingF_frame s (mkReading x)
    exact ⟨h1.trans g1, h2.trans g2, h3.trans g3⟩

lemma configure_state (s : SignalProcessor) (c : SignalConfig) :
    s.configure c =
      { SignalProcessor.mk' c with
          peak := ⟨c.peak_threshold, s.peak.prev_value, s.peak.rising⟩ } := rfl

lemma isPeak_single (d : PeakDetector) (x y : ℚ) :
    (d.isPeak x [y]).2 = false := by
  unfold PeakDetector.isPeak
  rw [if_pos (by norm_num)]

lemma processReading_peak_state_irrelevant (s : SignalProcessor) (pd : PeakDetector)
    (x : ℚ) (hrecent : s.recent_values = []) :
    (({ s with peak := pd }).processReading (mkReading x)).2 =
      (s.processReading (mkReading x)).2 := by
  unfold SignalProcessor.processReading
  simp only [hrecent]
  have hrec : (if 20 < (([] : List ℚ) ++ [(mkReading x).lux_value]).length
      then (([] : List ℚ) ++ [(mkReading x).lux_value]).tail
      else ([] : List ℚ) ++ [(mkReading x).lux_value]) = [(mkReading x).lux_value] := by
    norm_num
  simp only [hrec]
  congr 1
  by_cases hpk : s.config.enable_peak_detection = true
  · rw [if_pos hpk, if_pos hpk, isPeak_single, isPeak_single]
  · rw [if_neg hpk, if_neg hpk]

lemma configureF_after_run (c0 c : SignalConfig) (l : List ℚ)
    (hma : c.moving_average_window = c0.moving_average_window)
    (hmed : c.median_window = c0.median_window)
    (hlp : c.low_pass_cutoff = c0.low_pass_cutoff) :
    (((SignalProcessorF.mk' c0).run l).configure c) = SignalProcessorF.mk' c := by
  obtain ⟨h1, h2, h3⟩ := runF_frame (SignalProcessorF.mk' c0) l
  have ema : ((SignalProcessorF.mk' c0).run l).ma_filter.reset =
      MAFilterF.mk' c.moving_average_window := by
    unfold MAFilterF.reset MAFilterF.mk'
    rw [h1, show (SignalProcessorF.mk' c0).ma_filter.window_size =
      min c0.moving_average_window MAX_FILTER_WINDOW from rfl, hma]
  have emed : ((SignalProcessorF.mk' c0).run l).median_filter.reset =
      MedianFilterF.mk' c.median_window := by
    unfold MedianFilterF.reset MedianFilterF.mk'
    rw [h2, show (SignalProcessorF.mk' c0).median_filter.window_size =
      min c0.median_window MAX_FILTER_WINDOW from rfl, hmed]
  have elp : (⟨((SignalProcessorF.mk' c0).run l).lp_filter.alpha, 0⟩ : LowPassFilter) =
      LowPassFilter.mk' (if 0 < c.low_pass_cutoff then c.low_pass_cutoff else 1/2) 1 := by
    rw [h3, show (SignalProcessorF.mk' c0).lp_filter.alpha =
      lowPassAlpha (if 0 < c0.low_pass_cutoff then c0.low_pass_cutoff else 1/2) 1 from rfl,
      ← hlp]
    rfl
  unfold SignalProcessorF.configure
  rw [ema, emed, elp]
  rfl

/-- C2 (amended): in the dynamic variant, `configure(c)` after any input
history yields a pipeline whose next processed sample gives a result
identical to a freshly constructed pipeline with `c` — unconditionally (the
carried peak-detector state survives `configure` but cannot influence the
first post-configure sample).  In the fixed-buffer variant the member
filters keep their construction-time windows and low-pass coefficient, so
the equivalence holds when the new configuration's moving-average window,
median window and low-pass cutoff equal the construction configuration's
(then the post-configure state equals the fresh state outright). -/
theorem configure_fresh_equivalence :
    (∀ (c0 c : SignalConfig) (l : List ℚ) (x : ℚ),
        ((((SignalProcessor.mk' c0).run l).configure c).processReading (mkReading x)).2 =
          ((SignalProcessor.mk' c).processReading (mkReading x)).2) ∧
    (∀ (c0 c : SignalConfig) (l : List ℚ) (x : ℚ),
        c.moving_average_window = c0.moving_average_window →
        c.median_window = c0.median_window →
        c.low_pass_cutoff = c0.low_pass_cutoff →
        ((((SignalProcessorF.mk' c0).run l).configure c).processReading (mkReading x)).2 =
          ((SignalProcessorF.mk' c).processReading (mkReading x)).2) := by
  constructor
  · intro c0 c l x
    rw [configure_state]
    exact processReading_peak_state_irrelevant (SignalProcessor.mk' c) _ x rfl
  · intro c0 c l x hma hmed hlp
    rw [configureF_after_run c0 c l hma hmed hlp]

lemma processReadingF_filtered (s : SignalProcessorF) (r : SensorReading) :
    (s.processReading r).2.filtered_value =
      (({ s with recent := fun j => if j = s.recent_index then r.lux_value else s.recent j,
                 recent_index := (s.recent_index + 1) % MAX_RECENT_VALUES,
                 recent_count := if s.recent_count < MAX_RECENT_VALUES then s.recent_count + 1
                                 else s.recent_count }).applyFilters r.lux_value).2 := rfl

lemma applyFiltersF_out_lponly (s : SignalProcessorF) (x : ℚ)
    (hma : s.ma_enabled = false) (hmed : s.median_enabled = false)
    (hlp : s.lp_enabled = true) (had : s.adaptive_enabled = false) :
    (s.applyFilters x).2 =
      s.lp_filter.alpha * x + (1 - s.lp_filter.alpha) * s.lp_filter.prev_output := by
  unfold SignalProcessorF.applyFilters LowPassFilter.process
  simp only [hma, hmed, hlp, had]
  norm_num

/-- C2 counterexample: in the fixed-buffer variant, construct with low-pass
cutoff 0.1 Hz, feed `[100, 100, 100]`, then `configure` with cutoff 0.2 Hz
and process 5: the low-pass coefficient is never recomputed, so the filtered
output differs from a freshly constructed pipeline with cutoff 0.2 Hz — the
results are not identical, refuting the claim for every configuration. -/
theorem configure_fresh_counterexample :
    ((((SignalProcessorF.mk' cfgLp1).run [100, 100, 100]).configure cfgLp2).processReading
        (mkReading 5)).2.filtered_value ≠
      ((SignalProcessorF.mk' cfgLp2).processReading (mkReading 5)).2.filtered_value := by
  have halpha := (runF_frame (SignalProcessorF.mk' cfgLp1) [100, 100, 100]).2.2
  rw [processReadingF_filtered, processReadingF_filtered,
    applyFiltersF_out_lponly _ _ (by norm_num [SignalProcessorF.configure, cfgLp2, cfgQuiet])
      (by norm_num [SignalProcessorF.configure, cfgLp2, cfgQuiet])
      (by norm_num [SignalProcessorF.configure, cfgLp2, cfgQuiet])
      (by norm_num [SignalProcessorF.configure, cfgLp2, cfgQuiet]),
    applyFiltersF_out_lponly _ _ (by norm_num [SignalProcessorF.mk', cfgLp2, cfgQuiet])
      (by norm_num [SignalProcessorF.mk', cfgLp2, cfgQuiet])
      (by norm_num [SignalProcessorF.mk', cfgLp2, cfgQuiet])
      (by norm_num [SignalProcessorF.mk', cfgLp2, cfgQuiet])]
  have hcfg : ((((SignalProcessorF.mk' cfgLp1).run [100, 100, 100]).configure
      cfgLp2).lp_filter : LowPassFilter) =
      ⟨((SignalProcessorF.mk' cfgLp1).run [100, 100, 100]).lp_filter.alpha, 0⟩ := rfl
  rw [hcfg]
  simp only [halpha]
  norm_num [SignalProcessorF.mk', LowPassFilter.mk', cfgLp1, cfgLp2, cfgQuiet,
    lowPassAlpha, mPi, mkReading]

/-- C2 witness: concrete equal configurations for the fixed-variant branch,
and a concrete instantiation of the dynamic-variant branch. -/
theorem configure_fresh_equivalence_witness :
    ((((SignalProcessor.mk' cfgLp1).run [100, 100, 100]).configure cfgLp2).processReading
        (mkReading 5)).2 =
      ((SignalProcessor.mk' cfgLp2).processReading (mkReading 5)).2 ∧
    ((((SignalProcessorF.mk' cfgLp1).run [100, 100, 100]).configure cfgLp1).processReading
        (mkReading 5)).2 =
      ((SignalProcessorF.mk' cfgLp1).processReading (mkReading 5)).2 :=
  ⟨configure_fresh_equivalence.1 cfgLp1 cfgLp2 [100, 100, 100] 5,
   configure_fresh_equivalence.2 cfgLp1 cfgLp1 [100, 100, 100] 5 rfl rfl rfl⟩

-- Outlier detector semantics (claim C5)

lemma calculateStdDev_eq_spec (recent : List ℚ) (h : 3 ≤ recent.length) :
    calculateStdDev recent (calculateMean recent) = specSampleStdDev recent := by
  unfold calculateStdDev specSampleStdDev
  rw [if_neg (by omega)]
  congr 2
  rw [Nat.cast_sub (by omega : 1 ≤ recent.length), Nat.cast_one]

/-- C5 (amended): the dynamic variant's outlier check behaves exactly as the
claim states — false under 3 buffered values, false at zero sample standard
deviation, else `|value − mean| / stddev > threshold` with the
Bessel-corrected standard deviation; the fixed-buffer variant additionally
returns false whenever the standard deviation is below 0.001 (not only at
exactly zero). -/
theorem outlier_semantics :
    (∀ (t v : ℚ) (recent : List ℚ),
        OutlierDetector.isOutlier t v recent ↔
          (3 ≤ recent.length ∧ specSampleStdDev recent ≠ 0 ∧
            (t : ℝ) < |(v : ℝ) - (calculateMean recent : ℝ)| / specSampleStdDev recent)) ∧
    (∀ (s : SignalProcessorF) (v : ℚ),
        s.isOutlier v ↔
          (3 ≤ s.recent_count ∧ ¬ s.calcStdDev s.calcMean < 1/1000 ∧
            (s.config.outlier_threshold : ℝ) <
              |(v : ℝ) - (s.calcMean : ℝ)| / s.calcStdDev s.calcMean)) := by
  constructor
  · intro t v recent
    by_cases h : recent.length < 3
    · unfold OutlierDetector.isOutlier
      rw [if_pos h]
      simp only [false_iff]
      rintro ⟨h3, -, -⟩
      omega
    · have h3 : 3 ≤ recent.length := by omega
      unfold OutlierDetector.isOutlier
      rw [if_neg h]
      simp only []
      rw [calculateStdDev_eq_spec recent h3]
      by_cases hstd : specSampleStdDev recent = 0
      · rw [if_pos hstd]
        simp only [false_iff]
        rintro ⟨-, hn, -⟩
        exact hn hstd
      · rw [if_neg hstd]
        constructor
        · intro hz
          exact ⟨h3, hstd, hz⟩
        · rintro ⟨-, -, hz⟩
          exact hz
  · intro s v
    by_cases h : s.recent_count < 3
    · unfold SignalProcessorF.isOutlier
      rw [if_pos h]
      simp only [false_iff]
      rintro ⟨h3, -, -⟩
      omega
    · unfold SignalProcessorF.isOutlier
      rw [if_neg h]
      simp only []
      by_cases hstd : s.calcStdDev s.calcMean < 1/1000
      · rw [if_pos hstd]
        simp only [false_iff]
        rintro ⟨-, hn, -⟩
        exact hn hstd
      · rw [if_neg hstd]
        constructor
        · intro hz
          exact ⟨by omega, hstd, hz⟩
        · rintro ⟨-, -, hz⟩
          exact hz

lemma outlierState_mean : outlierState.calcMean = 1/2000 := by
  unfold SignalProcessorF.calcMean outlierState SignalProcessorF.mk'
  norm_num [Finset.sum_range_succ]

lemma outlierState_std : outlierState.calcStdDev (1/2000) = Real.sqrt (3/4000000) := by
  unfold SignalProcessorF.calcStdDev
  rw [if_neg (by norm_num [outlierState, SignalProcessorF.mk'])]
  have hsum : (∑ i ∈ Finset.range outlierState.recent_count,
      (outlierState.recent i - 1/2000) * (outlierState.recent i - 1/2000) : ℚ) = 3/2000000 := by
    norm_num [outlierState, SignalProcessorF.mk', Finset.sum_range_succ]
  rw [hsum]
  have hcount : outlierState.recent_count = 3 := rfl
  rw [hcount]
  norm_num

/-- C5 counterexample: a fixed-variant state whose recent window is
`[0, 0, 0.0015]` has sample standard deviation `√(3)/2000 ≈ 0.00087`,
strictly positive but below the guard `0.001`; with threshold 2 the value
1000 has a huge z-score, so the claim's "otherwise true iff
`|value − mean|/stddev > threshold`" demands true, yet the code returns
false. -/
theorem outlier_semantics_counterexample :
    ¬ outlierState.isOutlier 1000 ∧ 3 ≤ outlierState.recent_count ∧
      outlierState.calcStdDev outlierState.calcMean ≠ 0 ∧
      (outlierState.config.outlier_threshold : ℝ) <
        |(1000 : ℝ) - (outlierState.calcMean : ℝ)| /
          outlierState.calcStdDev outlierState.calcMean := by
  have hmean := outlierState_mean
  have hstd : outlierState.calcStdDev outlierState.calcMean = Real.sqrt (3/4000000) := by
    rw [hmean]
    exact outlierState_std
  have hlt : Real.sqrt (3/4000000) < 1/1000 := by
    rw [Real.sqrt_lt' (by norm_num)]
    norm_num
  have hpos : (0 : ℝ) < Real.sqrt (3/4000000) := Real.sqrt_pos.mpr (by norm_num)
  refine ⟨?_, by norm_num [outlierState, SignalProcessorF.mk'],
    by rw [hstd]; exact ne_of_gt hpos, ?_⟩
  · unfold SignalProcessorF.isOutlier
    rw [if_neg (by norm_num [outlierState, SignalProcessorF.mk'])]
    simp only []
    rw [hstd, if_pos hlt]
    exact not_false
  · have hth : outlierState.config.outlier_threshold = 2 := rfl
    rw [hth, hstd, hmean, lt_div_iff₀ hpos]
    push_cast
    rw [abs_of_pos (by norm_num)]
    nlinarith [hlt]

-- Trend confidence (claim C9): the correlation coefficient is bounded by 1
-- (Cauchy-Schwarz), so the reported confidence lies in [0, 1].

lemma abs_corr_le_one (n : ℕ) (f g : ℕ → ℚ)
    (hx : (∑ i ∈ Finset.range n, f i * f i) ≠ 0)
    (hy : (∑ i ∈ Finset.range n, g i * g i) ≠ 0) :
    |((∑ i ∈ Finset.range n, f i * g i : ℚ) : ℝ) /
      Real.sqrt (((∑ i ∈ Finset.range n, f i * f i : ℚ) : ℝ) *
        ((∑ i ∈ Finset.range n, g i * g i : ℚ) : ℝ))| ≤ 1 := by
  have hxd : (0 : ℚ) < ∑ i ∈ Finset.range n, f i * f i :=
    lt_of_le_of_ne (Finset.sum_nonneg fun i _ => mul_self_nonneg _) (Ne.symm hx)
  have hyd : (0 : ℚ) < ∑ i ∈ Finset.range n, g i * g i :=
    lt_of_le_of_ne (Finset.sum_nonneg fun i _ => mul_self_nonneg _) (Ne.symm hy)
  have hcs : (∑ i ∈ Finset.range n, f i * g i) * (∑ i ∈ Finset.range n, f i * g i) ≤
      (∑ i ∈ Finset.range n, f i * f i) * (∑ i ∈ Finset.range n, g i * g i) := by
    have h := Finset.sum_mul_sq_le_sq_mul_sq (Finset.range n) f g
    simpa [pow_two] using h
  have hprod : (0 : ℝ) < ((∑ i ∈ Finset.range n, f i * f i : ℚ) : ℝ) *
      ((∑ i ∈ Finset.range n, g i * g i : ℚ) : ℝ) := by
    have : (0 : ℝ) < ((∑ i ∈ Finset.range n, f i * f i : ℚ) : ℝ) := by exact_mod_cast hxd
    have h2 : (0 : ℝ) < ((∑ i ∈ Finset.range n, g i * g i : ℚ) : ℝ) := by exact_mod_cast hyd
    positivity
  rw [abs_div, abs_of_nonneg (Real.sqrt_nonneg _),
    div_le_one (Real.sqrt_pos.mpr hprod)]
  calc |((∑ i ∈ Finset.range n, f i * g i : ℚ) : ℝ)|
      = Real.sqrt (((∑ i ∈ Finset.range n, f i * g i : ℚ) : ℝ) ^ 2) :=
        (Real.sqrt_sq_eq_abs _).symm
    _ ≤ Real.sqrt (((∑ i ∈ Finset.range n, f i * f i : ℚ) : ℝ) *
        ((∑ i ∈ Finset.range n, g i * g i : ℚ) : ℝ)) := by
        apply Real.sqrt_le_sqrt
        rw [pow_two]
        push_cast
        exact_mod_cast hcs

lemma linearRegression_abs_corr_le_one (xs ys : List ℚ) :
    |(linearRegression xs ys).2| ≤ 1 := by
  unfold linearRegression
  simp only [apply_ite Prod.snd]
  split_ifs with h1 h2
  · norm_num
  · norm_num
  · unfold regSums at h2 ⊢
    simp only [not_or] at h2
    exact abs_corr_le_one _ _ _ h2.1 h2.2

lemma linearRegression_corr_zero_of_xd (xs ys : List ℚ)
    (h : (regSums xs ys).2.1 = 0) : (linearRegression xs ys).2 = 0 := by
  unfold linearRegression
  simp only [apply_ite Prod.snd]
  split_ifs with h1 h2
  · rfl
  · rfl
  · exact absurd (Or.inl h) h2

lemma analyzeTrend_conf_bounds (t : TrendAnalyzer) (v : ℚ) :
    0 ≤ ((t.analyzeTrend v).2).confidence ∧ ((t.analyzeTrend v).2).confidence ≤ 1 := by
  unfold TrendAnalyzer.analyzeTrend
  simp only []
  generalize (if t.window_size < (t.buffer ++ [v]).length then (t.buffer ++ [v]).tail
    else t.buffer ++ [v]) = b
  split_ifs
  · exact ⟨le_refl 0, by norm_num⟩
  · exact ⟨abs_nonneg _, linearRegression_abs_corr_le_one _ _⟩

lemma analyzeTrend_conf_short (t : TrendAnalyzer) (v : ℚ)
    (h : ((t.analyzeTrend v).1).buffer.length < 3) :
    ((t.analyzeTrend v).2).confidence = 0 := by
  unfold TrendAnalyzer.analyzeTrend at h ⊢
  simp only [] at h ⊢
  generalize hb : (if t.window_size < (t.buffer ++ [v]).length then (t.buffer ++ [v]).tail
    else t.buffer ++ [v]) = b at h ⊢
  simp only [apply_ite Prod.fst, ite_self] at h
  rw [if_pos h]

lemma analyzeTrendF_conf_bounds (t : TrendAnalyzerF) (v : ℚ) :
    0 ≤ ((t.analyzeTrend v).2).confidence ∧ ((t.analyzeTrend v).2).confidence ≤ 1 := by
  unfold TrendAnalyzerF.analyzeTrend
  simp only []
  generalize (if t.count < t.window_size then t.count + 1 else t.count) = c
  by_cases hA : c < 3
  · rw [if_pos hA]
    exact ⟨le_refl 0, zero_le_one⟩
  · rw [if_neg hA]
    by_cases hC : 1/1000 < (regSumsF t.window_size (fun j => if j = t.index then v else t.buf j)
        ((t.index + 1) % t.window_size) c).2.1 ∧
        1/1000 < (regSumsF t.window_size (fun j => if j = t.index then v else t.buf j)
        ((t.index + 1) % t.window_size) c).2.2
    · rw [if_pos hC]
      refine ⟨abs_nonneg _, ?_⟩
      unfold regSumsF at hC ⊢
      exact abs_corr_le_one _ _ _ (by nlinarith [hC.1]) (by nlinarith [hC.2])
    · rw [if_neg hC]
      exact ⟨le_refl 0, zero_le_one⟩

lemma analyzeTrendF_conf_short (t : TrendAnalyzerF) (v : ℚ)
    (h : ((t.analyzeTrend v).1).count < 3) :
    ((t.analyzeTrend v).2).confidence = 0 := by
  unfold TrendAnalyzerF.analyzeTrend at h ⊢
  simp only [] at h ⊢
  simp only [apply_ite Prod.fst, ite_self] at h
  rw [if_pos h]

/-- C9: the trend confidence is always in `[0, 1]` — it is the absolute
value of a correlation coefficient, bounded through Cauchy-Schwarz — and it
is 0 when fewer than 3 samples are buffered, and the correlation itself is 0
whenever the x denominator is (numerically) zero.  This holds in both the
dynamic and the fixed-buffer variant. -/
theorem trend_confidence_in_unit_interval :
    (∀ xs ys : List ℚ,
        |(linearRegression xs ys).2| ≤ 1 ∧
          ((regSums xs ys).2.1 = 0 → (linearRegression xs ys).2 = 0)) ∧
    (∀ (t : TrendAnalyzer) (v : ℚ),
        0 ≤ ((t.analyzeTrend v).2).confidence ∧
          ((t.analyzeTrend v).2).confidence ≤ 1 ∧
          (((t.analyzeTrend v).1).buffer.length < 3 →
            ((t.analyzeTrend v).2).confidence = 0)) ∧
    (∀ (t : TrendAnalyzerF) (v : ℚ),
        0 ≤ ((t.analyzeTrend v).2).confidence ∧
          ((t.analyzeTrend v).2).confidence ≤ 1 ∧
          (((t.analyzeTrend v).1).count < 3 →
            ((t.analyzeTrend v).2).confidence = 0)) := by
  refine ⟨fun xs ys => ⟨linearRegression_abs_corr_le_one xs ys,
      linearRegression_corr_zero_of_xd xs ys⟩,
    fun t v => ⟨(analyzeTrend_conf_bounds t v).1, (analyzeTrend_conf_bounds t v).2,
      analyzeTrend_conf_short t v⟩,
    fun t v => ⟨(analyzeTrendF_conf_bounds t v).1, (analyzeTrendF_conf_bounds t v).2,
      analyzeTrendF_conf_short t v⟩⟩

/-- C9 witness: concrete instantiations — a constant x sequence has zero x
denominator and hence zero correlation, and a single-sample window reports
zero confidence. -/
theorem trend_confidence_witness :
    (linearRegression [0, 0] [1, 2]).2 = 0 ∧
      ((TrendAnalyzer.mk' 5).analyzeTrend 7).2.confidence = 0 ∧
      ((TrendAnalyzerF.mk' 5).analyzeTrend 7).2.confidence = 0 := by
  refine ⟨(trend_confidence_in_unit_interval.1 [0, 0] [1, 2]).2 ?_,
    (trend_confidence_in_unit_interval.2.1 (TrendAnalyzer.mk' 5) 7).2.2 ?_,
    (trend_confidence_in_unit_interval.2.2 (TrendAnalyzerF.mk' 5) 7).2.2 ?_⟩
  · norm_num [regSums, Finset.sum_range_succ]
  · norm_num [TrendAnalyzer.analyzeTrend, TrendAnalyzer.mk']
  · norm_num [TrendAnalyzerF.analyzeTrend, TrendAnalyzerF.mk', MAX_FILTER_WINDOW]

/-- C10: the quality score of every processed sample lies in `[40, 100]`:
the deductions total at most 60 from 100, so the lower clamp at 0 is never
reached (both variants). -/
theorem quality_score_in_40_100 :
    (∀ (s : SignalProcessor) (r : SensorReading),
        40 ≤ (s.processReading r).2.quality_score ∧
          (s.processReading r).2.quality_score ≤ 100) ∧
    (∀ (s : SignalProcessorF) (r : SensorReading),
        40 ≤ (s.processReading r).2.quality_score ∧
          (s.processReading r).2.quality_score ≤ 100) := by
  constructor
  · intro s r
    rw [processReading_quality]
    exact calcQuality_bounds _ _ _
  · intro s r
    rw [processReadingF_quality]
    exact calcQualityF_bounds _ _ _
